import Mathlib

/-!
Verification development for the panparsex AI post-processing core
(`src/panparsex/ai_processor.py`): the token-bounded hierarchical chunking
and context-carrying merge engine.

Strings are modelled as `List Char` (`Str`); Python string operations
(`split`, `strip`, concatenation, f-string splicing) are given faithful
executable counterparts.  The tokenizer (`tiktoken`), the completion
service (`openai`), the JSON parser (`json.loads`) and Python's
`list(set(...))` are external collaborators of the repository; they are
modelled as explicit function parameters, with their contracts stated as
hypotheses where a theorem needs them.
-/

namespace Panparsex

/-- Python strings, modelled as lists of characters. -/
abbrev Str := List Char

/-- Embed a Lean string literal as a `Str`. -/
def chars (s : String) : Str := s.data

/-- Decimal digits of a natural number (fuel-based so it computes by `decide`);
`natToChars (n+1) n` yields the digits of `n` most-significant first. -/
def natToChars : Nat → Nat → Str
  | 0, _ => []
  | fuel + 1, n => if n < 10 then [Nat.digitChar n] else natToChars fuel (n / 10) ++ [Nat.digitChar (n % 10)]

/-- Python `str(n)` for a non-negative integer. -/
def natStr (n : Nat) : Str := natToChars (n + 1) n

/-- Python `str(i)` for an integer. -/
def intStr (i : Int) : Str := if i < 0 then '-' :: natStr i.natAbs else natStr i.toNat

/-- The ASCII whitespace characters stripped by Python's `str.strip()`. -/
def pySpace (c : Char) : Bool := c = ' ' ∨ c = '\t' ∨ c = '\n' ∨ c = '\r' ∨ c = '\x0b' ∨ c = '\x0c'

/-- Python `s.strip()`: drop leading and trailing whitespace. -/
def pyStrip (s : Str) : Str := ((s.dropWhile pySpace).reverse.dropWhile pySpace).reverse

/-- Worker for `pySplit`: split `l` at every non-overlapping occurrence of the
separator `s0 :: stail`, scanning left to right.  The fuel argument makes the
recursion structural (so that terms reduce inside `decide`); it is always
called with fuel `≥ l.length`, which makes the `0` case unreachable. -/
def splitSepF (s0 : Char) (stail : Str) : Nat → Str → List Str
  | _, [] => [[]]
  | 0, l => [l]
  | fuel + 1, c :: rest =>
    if s0 = c ∧ stail.isPrefixOf rest then
      [] :: splitSepF s0 stail fuel (rest.drop stail.length)
    else
      match splitSepF s0 stail fuel rest with
      | [] => [[c]]
      | h :: t => (c :: h) :: t

/-- Python `l.split(sep)` for a non-empty separator (Python raises
`ValueError` on an empty separator; the source only splits on
`"\n--- Section"`, `"\n\n"` and `". "`). -/
def pySplit (sep : Str) (l : Str) : List Str :=
  match sep with
  | [] => [l]
  | s0 :: stail => splitSepF s0 stail l.length l

/-- The paragraph separator `"\n\n"`. -/
def nnSep : Str := chars "\n\n"

/-- The sentence separator `". "`. -/
def dsSep : Str := chars ". "

/-- The section-boundary text `"--- Section"` re-attached to every split
piece after the first (`ai_processor.py:181`). -/
def secMarker : Str := chars "--- Section"

/-- The section separator `"\n--- Section"` (`ai_processor.py:175`). -/
def secSep : Str := chars "\n--- Section"

/-- The mutable state of `_split_content_into_chunks`: the list of emitted
chunks and the accumulator `current_chunk`. -/
structure SplitState where
  chunks : List Str
  current : Str
  deriving DecidableEq

/-- One iteration of the sentence loop of `_split_content_into_chunks`
(`ai_processor.py:198-207`): `tok` is the external tokenizer's token count
and `B` the chunk budget (an `int` in Python, so possibly negative). -/
def addSentence (tok : Str → Nat) (B : Int) (st : SplitState) (sent : Str) : SplitState :=
  if (tok (st.current ++ dsSep ++ sent) : Int) > B then
    if st.current ≠ [] then
      { chunks := st.chunks ++ [pyStrip st.current], current := sent }
    else
      -- single sentence is too large, force split (line 205); `current_chunk`
      -- is left unchanged (it is empty in this branch)
      { chunks := st.chunks ++ [sent], current := st.current }
  else
    { chunks := st.chunks, current := st.current ++ (if st.current ≠ [] then dsSep ++ sent else sent) }

/-- One iteration of the paragraph loop of `_split_content_into_chunks`
(`ai_processor.py:188-209`).  The unused Python local `para_tokens`
(line 189) has no observable effect and is not represented. -/
def addParagraph (tok : Str → Nat) (B : Int) (st : SplitState) (para : Str) : SplitState :=
  if (tok (st.current ++ nnSep ++ para) : Int) > B then
    if st.current ≠ [] then
      { chunks := st.chunks ++ [pyStrip st.current], current := para }
    else
      -- single paragraph is too large, split by sentences (lines 197-207)
      (pySplit dsSep para).foldl (addSentence tok B) st
  else
    { chunks := st.chunks, current := st.current ++ (if st.current ≠ [] then nnSep ++ para else para) }

/-- One iteration of the section loop of `_split_content_into_chunks`
(`ai_processor.py:179-219`), after the header restoration of line 181. -/
def addSection (tok : Str → Nat) (B : Int) (st : SplitState) (sec : Str) : SplitState :=
  if (tok sec : Int) > B then
    -- section is too large, split by paragraphs (lines 186-209)
    (pySplit nnSep sec).foldl (addParagraph tok B) st
  else
    if (tok (st.current ++ nnSep ++ sec) : Int) > B then
      if st.current ≠ [] then
        { chunks := st.chunks ++ [pyStrip st.current], current := sec }
      else
        { chunks := st.chunks ++ [sec], current := st.current }
    else
      { chunks := st.chunks, current := st.current ++ (if st.current ≠ [] then nnSep ++ sec else sec) }

/-- Header restoration (`ai_processor.py:180-181`): every split piece after
the first gets `"--- Section"` re-attached (the `"\n"` consumed by the split
is NOT restored). -/
def restoreHeaders : List Str → List Str
  | [] => []
  | s :: rest => s :: rest.map (fun t => secMarker ++ t)

/-- `AIProcessor._split_content_into_chunks` (`ai_processor.py:172-224`). -/
def splitContentIntoChunks (tok : Str → Nat) (content : Str) (B : Int) : List Str :=
  let sections := restoreHeaders (pySplit secSep content)
  let st := sections.foldl (addSection tok B) { chunks := [], current := [] }
  if st.current ≠ [] then st.chunks ++ [pyStrip st.current] else st.chunks

/-- Character-count token meter: the simplest deterministic pure meter
satisfying the spec's TokenMeter contract; used to instantiate the abstract
external tokenizer in witnesses and counterexamples. -/
def tokLen (s : Str) : Nat := s.length

/-- Python values produced by `json.loads` and manipulated by the result
merger: strings, integers, booleans, `None`, lists and (insertion-ordered)
dicts.  JSON floats are not needed by any claim and are omitted. -/
inductive JValue where
  | str (s : Str)
  | num (n : Int)
  | bool (b : Bool)
  | null
  | arr (xs : List JValue)
  | obj (kvs : List (Str × JValue))

mutual

/-- Boolean equality on `JValue` (the automatic `DecidableEq` derivation does
not support this nested inductive, so it is spelled out). -/
def beqJ : JValue → JValue → Bool
  | .str a, .str b => a = b
  | .num a, .num b => a = b
  | .bool a, .bool b => a = b
  | .null, .null => true
  | .arr xs, .arr ys => beqJL xs ys
  | .obj xs, .obj ys => beqJKV xs ys
  | _, _ => false

/-- Boolean equality on lists of `JValue`. -/
def beqJL : List JValue → List JValue → Bool
  | [], [] => true
  | x :: xs, y :: ys => beqJ x y && beqJL xs ys
  | _, _ => false

/-- Boolean equality on key-value lists. -/
def beqJKV : List (Str × JValue) → List (Str × JValue) → Bool
  | [], [] => true
  | (k1, v1) :: xs, (k2, v2) :: ys => (k1 = k2 : Bool) && beqJ v1 v2 && beqJKV xs ys
  | _, _ => false

end

mutual

theorem beqJ_iff : ∀ a b, beqJ a b = true ↔ a = b
  | .str a, .str b => by simp [beqJ]
  | .num a, .num b => by simp [beqJ]
  | .bool a, .bool b => by simp [beqJ]
  | .null, .null => by simp [beqJ]
  | .arr xs, .arr ys => by
    simp only [beqJ, beqJL_iff xs ys]
    exact ⟨fun h => by rw [h], fun h => by injection h⟩
  | .obj xs, .obj ys => by
    simp only [beqJ, beqJKV_iff xs ys]
    exact ⟨fun h => by rw [h], fun h => by injection h⟩
  | .str _, .num _ => by simp [beqJ]
  | .str _, .bool _ => by simp [beqJ]
  | .str _, .null => by simp [beqJ]
  | .str _, .arr _ => by simp [beqJ]
  | .str _, .obj _ => by simp [beqJ]
  | .num _, .str _ => by simp [beqJ]
  | .num _, .bool _ => by simp [beqJ]
  | .num _, .null => by simp [beqJ]
  | .num _, .arr _ => by simp [beqJ]
  | .num _, .obj _ => by simp [beqJ]
  | .bool _, .str _ => by simp [beqJ]
  | .bool _, .num _ => by simp [beqJ]
  | .bool _, .null => by simp [beqJ]
  | .bool _, .arr _ => by simp [beqJ]
  | .bool _, .obj _ => by simp [beqJ]
  | .null, .str _ => by simp [beqJ]
  | .null, .num _ => by simp [beqJ]
  | .null, .bool _ => by simp [beqJ]
  | .null, .arr _ => by simp [beqJ]
  | .null, .obj _ => by simp [beqJ]
  | .arr _, .str _ => by simp [beqJ]
  | .arr _, .num _ => by simp [beqJ]
  | .arr _, .bool _ => by simp [beqJ]
  | .arr _, .null => by simp [beqJ]
  | .arr _, .obj _ => by simp [beqJ]
  | .obj _, .str _ => by simp [beqJ]
  | .obj _, .num _ => by simp [beqJ]
  | .obj _, .bool _ => by simp [beqJ]
  | .obj _, .null => by simp [beqJ]
  | .obj _, .arr _ => by simp [beqJ]

theorem beqJL_iff : ∀ xs ys, beqJL xs ys = true ↔ xs = ys
  | [], [] => by simp [beqJL]
  | x :: xs, y :: ys => by simp [beqJL, beqJ_iff x y, beqJL_iff xs ys]
  | [], _ :: _ => by simp [beqJL]
  | _ :: _, [] => by simp [beqJL]

theorem beqJKV_iff : ∀ xs ys, beqJKV xs ys = true ↔ xs = ys
  | [], [] => by simp [beqJKV]
  | (k1, v1) :: xs, (k2, v2) :: ys => by simp [beqJKV, beqJ_iff v1 v2, beqJKV_iff xs ys]
  | [], _ :: _ => by simp [beqJKV]
  | _ :: _, [] => by simp [beqJKV]

end

instance : DecidableEq JValue := fun a b => decidable_of_iff _ (beqJ_iff a b)

/-- Python `d[k]` lookup in an insertion-ordered dict, as `Option`
(dict keys are unique in Python, so first match suffices). -/
def jlookup : List (Str × JValue) → Str → Option JValue
  | [], _ => none
  | (k, v) :: rest, key => if k = key then some v else jlookup rest key

/-- Combined `isinstance(r, dict) and k in r` access: the value of key `k`
when `r` is a dict containing it, `none` otherwise. -/
def objLookup : JValue → Str → Option JValue
  | .obj kvs, k => jlookup kvs k
  | _, _ => none

/-- Two-level dict access `r[k1][k2]`. -/
def objLookup2 (r : JValue) (k1 k2 : Str) : Option JValue :=
  match objLookup r k1 with
  | some v => objLookup v k2
  | none => none

/-- Python `d[k] = v` on an insertion-ordered dict: overwrite an existing
key in place, otherwise append. -/
def jInsert : List (Str × JValue) → Str → JValue → List (Str × JValue)
  | [], key, v => [(key, v)]
  | (k, w) :: rest, key, v => if k = key then (k, v) :: rest else (k, w) :: jInsert rest key v

mutual

/-- Python `repr(v)`: strings in quotes, containers rendered recursively with
their full contents, so a container's repr grows without bound with what it
holds.  Python's escape sequences and quote-selection rules inside string
reprs are not reproduced (no claim depends on exact escape syntax, only on
the rendering being unbounded and content-faithful). -/
def pyRepr : JValue → Str
  | .str s => '\x27' :: (s ++ ['\x27'])
  | .num n => intStr n
  | .bool true => chars "True"
  | .bool false => chars "False"
  | .null => chars "None"
  | .arr xs => '[' :: (pyReprItems xs ++ [']'])
  | .obj kvs => '\x7b' :: (pyReprEntries kvs ++ ['\x7d'])

/-- The comma-separated element reprs of a Python list. -/
def pyReprItems : List JValue → Str
  | [] => []
  | [x] => pyRepr x
  | x :: y :: rest => pyRepr x ++ chars ", " ++ pyReprItems (y :: rest)

/-- The comma-separated `key: value` entries of a Python dict repr. -/
def pyReprEntries : List (Str × JValue) → Str
  | [] => []
  | [(k, v)] => pyRepr (.str k) ++ chars ": " ++ pyRepr v
  | (k, v) :: e :: rest => pyRepr (.str k) ++ chars ": " ++ pyRepr v ++ chars ", " ++ pyReprEntries (e :: rest)

end

/-- Python `str(v)` / f-string interpolation of a value.  Strings interpolate
verbatim; numbers, booleans and `None` use their Python spellings; lists and
dicts interpolate as their `repr`, which is unbounded in their contents. -/
def pyStr : JValue → Str
  | .str s => s
  | .num n => intStr n
  | .bool true => chars "True"
  | .bool false => chars "False"
  | .null => chars "None"
  | .arr xs => pyRepr (.arr xs)
  | .obj kvs => pyRepr (.obj kvs)

/-- Python `len(v)`: the length of a string, list or dict; `len()` of a
number, boolean or `None` raises TypeError, modelled as `none`. -/
def pyLenOf : JValue → Option Nat
  | .str s => some s.length
  | .arr xs => some xs.length
  | .obj kvs => some kvs.length
  | _ => none

/-- Document metadata (`types.py:8-18`); only the fields read by
`_prepare_content_for_ai` are represented. -/
structure PyMetadata where
  source : Str
  content_type : Str
  title : Option Str

/-- An image descriptor (`types.py:20-32`); only the fields read by
`_prepare_content_for_ai` are represented.  `dimensions` is an optional
string-keyed int dict. -/
structure PyImage where
  image_id : Str
  page_number : Int
  dimensions : Option (List (Str × Int))
  associated_text : Option Str

/-- A text chunk (`types.py:42-47`); only the fields read by
`_prepare_content_for_ai` are represented. -/
structure PyChunk where
  text : Str
  associated_images : List Str

/-- A document section (`types.py:49-53`). -/
structure PySection where
  heading : Option Str
  chunks : List PyChunk
  images : List PyImage

/-- A parsed document (`types.py:55-59`). -/
structure PyDocument where
  meta : PyMetadata
  sections : List PySection
  images : List PyImage

/-- Python truthiness of an optional string: `None` and `""` are falsy. -/
def truthyOptStr : Option Str → Bool
  | some s => !s.isEmpty
  | none => false

/-- `img.dimensions.get(k, '?')` rendered into an f-string
(`ai_processor.py:404`). -/
def dimGet (d : List (Str × Int)) (k : Str) : Str
  := match d.find? (fun p => p.1 = k) with
     | some p => intStr p.2
     | none => chars "?"

/-- The per-image overview line (`ai_processor.py:402-407`).  Note the code
appends `"..."` to the 100-character prefix of the associated text
unconditionally. -/
def imageLine (img : PyImage) : Str :=
  let info := chars "- Image " ++ img.image_id ++ chars " on page " ++ intStr img.page_number
  let info := match img.dimensions with
    | some d =>
        if d.isEmpty then info
        else info ++ chars " (" ++ dimGet d (chars "width") ++ chars "x" ++ dimGet d (chars "height") ++ chars ")"
    | none => info
  match img.associated_text with
  | some t => if t.isEmpty then info else info ++ chars " - Associated text: " ++ t.take 100 ++ chars "..."
  | none => info

/-- `img.associated_text or 'No associated text'` (`ai_processor.py:419`). -/
def assocOrDefault (img : PyImage) : Str :=
  match img.associated_text with
  | some t => if t.isEmpty then chars "No associated text" else t
  | none => chars "No associated text"

/-- The serialized text of section number `i` (`ai_processor.py:410-428`). -/
def sectionText (i : Nat) (sec : PySection) : Str :=
  let t := chars "\n--- Section " ++ natStr (i + 1) ++ chars " ---"
  let t := match sec.heading with
    | some h => if h.isEmpty then t else t ++ chars "\nHeading: " ++ h
    | none => t
  let t :=
    if sec.images.isEmpty then t
    else sec.images.foldl (fun acc img => acc ++ chars "\n  - " ++ img.image_id ++ chars ": " ++ assocOrDefault img)
      (t ++ chars "\nImages in this section: " ++ natStr sec.images.length)
  sec.chunks.enum.foldl (fun acc jc =>
    let acc := acc ++ chars "\nChunk " ++ natStr (jc.1 + 1) ++ chars ": " ++ jc.2.text
    if jc.2.associated_images.isEmpty then acc
    else acc ++ chars "\n  Associated images: " ++ List.intercalate (chars ", ") jc.2.associated_images) t

/-- `AIProcessor._prepare_content_for_ai` (`ai_processor.py:386-430`). -/
def prepareContentForAI (doc : PyDocument) : Str :=
  let parts : List Str :=
    (if truthyOptStr doc.meta.title then [chars "Title: " ++ doc.meta.title.getD []] else [])
  let parts := parts ++ (if doc.meta.source.isEmpty then [] else [chars "Source: " ++ doc.meta.source])
  let parts := parts ++ (if doc.meta.content_type.isEmpty then [] else [chars "Content Type: " ++ doc.meta.content_type])
  let parts := parts ++
    (if doc.images.isEmpty then []
     else (chars "\nDocument contains " ++ natStr doc.images.length ++ chars " images:") :: doc.images.map imageLine)
  let parts := parts ++ doc.sections.enum.map (fun p => sectionText p.1 p.2)
  List.intercalate (chars "\n") parts

/-- The fixed JSON-shape block shared by both system prompts
(`ai_processor.py:363-379` and `449-465` differ only in the summary line). -/
def jsonShapeBlock (summaryLine : Str) : Str :=
  chars "\x7b\n    \"summary\": \"" ++ summaryLine ++ chars "\",\n    \"key_topics\": [\"topic1\", \"topic2\", \"topic3\"],\n    \"important_points\": [\"point1\", \"point2\", \"point3\"],\n    \"structured_content\": \x7b\n        \"section1\": \"content\",\n        \"section2\": \"content\"\n    \x7d,\n    \"images_analysis\": \x7b\n        \"total_images\": 0,\n        \"images_by_page\": \x7b\"page1\": [\"image1\", \"image2\"]\x7d,\n        \"image_contexts\": [\"context1\", \"context2\"]\n    \x7d,\n    \"insights\": [\"insight1\", \"insight2\"],\n    \"recommendations\": [\"recommendation1\", \"recommendation2\"]\n\x7d"

/-- `AIProcessor._create_system_prompt` (`ai_processor.py:432-470`). -/
def createSystemPrompt (task outputFormat : Str) : Str :=
  chars "You are an expert data analyst and content processor. Your task is to: " ++ task ++
  chars "\n\nThe content will be provided in a structured format with sections and chunks. The document may also contain images with associated metadata including page numbers, dimensions, and nearby text. Please analyze the content thoroughly and provide your response in the requested format.\n\nOutput Format: " ++ outputFormat ++
  chars "\n\nGuidelines:\n1. Understand the content deeply and identify key themes, topics, and important information\n2. Restructure the information in a logical, coherent manner\n3. Filter out irrelevant or redundant information\n4. Maintain accuracy and preserve important details\n5. Provide clear, well-organized output\n6. When images are present, consider their context and associated text in your analysis\n7. Note the relationship between images and surrounding text content\n\nFor structured_json format, return a JSON object with the following structure:\n" ++
  jsonShapeBlock (chars "Brief overview of the content") ++
  chars "\n\nFor markdown format, return well-formatted markdown with headers, lists, and proper structure.\nFor summary format, return a concise summary of the key points.\n"

/-- `AIProcessor._create_chunk_system_prompt` (`ai_processor.py:343-384`). -/
def createChunkSystemPrompt (task outputFormat : Str) (chunkNum totalChunks : Nat) : Str :=
  chars "You are an expert data analyst and content processor. Your task is to: " ++ task ++
  chars "\n\nYou are processing chunk " ++ natStr chunkNum ++ chars " of " ++ natStr totalChunks ++
  chars " total chunks. This is part of a larger document that has been split for processing.\n\nThe content will be provided in a structured format with sections and chunks. The document may also contain images with associated metadata including page numbers, dimensions, and nearby text. Please analyze the content thoroughly and provide your response in the requested format.\n\nOutput Format: " ++ outputFormat ++
  chars "\n\nGuidelines:\n1. Understand the content deeply and identify key themes, topics, and important information\n2. Focus on the specific content in this chunk while being aware it\x27s part of a larger document\n3. Filter out irrelevant or redundant information\n4. Maintain accuracy and preserve important details\n5. Provide clear, well-organized output\n6. When images are present, consider their context and associated text in your analysis\n7. Note the relationship between images and surrounding text content\n8. If this is not the first chunk, consider the previous context provided\n\nFor structured_json format, return a JSON object with the following structure:\n" ++
  jsonShapeBlock (chars "Brief overview of this chunk\x27s content") ++
  chars "\n\nFor markdown format, return well-formatted markdown with headers, lists, and proper structure.\nFor summary format, return a concise summary of the key points in this chunk.\n"

/-- Python runtime errors raised by the modelled code paths. -/
inductive PyErr where
  | nameError (name : Str)
  | typeError
  deriving DecidableEq

/-- Observable actions of a `process_document` run: a completion-service
call (with its two prompts), an invocation of the chunk splitter (with the
budget it was given and the number of chunks it produced), and an invocation
of the result merger. -/
inductive AIEvent where
  | completion (systemPrompt userPrompt : Str)
  | split (budget : Int) (numChunks : Nat)
  | merge (numResults : Nat)
  deriving DecidableEq

/-- The names bound at module level of `ai_processor.py` (the imports of
lines 6-11 plus the module's own definitions).  Python name resolution also
consults the builtins, none of which is named `sys`. -/
def moduleGlobals : List Str :=
  [chars "annotations", chars "json", chars "os", chars "tiktoken",
   chars "Dict", chars "Any", chars "Optional", chars "List", chars "Tuple",
   chars "UnifiedDocument", chars "Section", chars "Chunk",
   chars "AIProcessor", chars "process_with_ai"]

/-- Resolution of a global name inside `ai_processor.py`: a `NameError` is
raised when the name is not bound. -/
def evalName (n : Str) : Except PyErr Unit :=
  if n ∈ moduleGlobals then .ok () else .error (.nameError n)

/-- `AIProcessor._process_single_chunk` (`ai_processor.py:92-122`).
`jparse` models the external `json.loads` as a strict parser (`none` on
malformed input) and `svc` the injected completion service (response text as
a function of the two prompts).  Returns the result together with the
completion-service call issued. -/
def processSingleChunk (jparse : Str → Option JValue) (svc : Str → Str → Str)
    (content task outputFormat : Str) : JValue × List AIEvent :=
  let systemPrompt := createSystemPrompt task outputFormat
  let userPrompt := chars "Please process the following content:\n\n" ++ content
  let result := svc systemPrompt userPrompt
  let r := if outputFormat = chars "structured_json" then
      match jparse result with
      | some j => j
      | none => .obj [(chars "raw_response", .str result), (chars "format", .str (chars "text"))]
    else .obj [(chars "content", .str result), (chars "format", .str outputFormat)]
  (r, [.completion systemPrompt userPrompt])

/-- `AIProcessor._process_chunk_with_context` (`ai_processor.py:226-258`). -/
def processChunkWithContext (jparse : Str → Option JValue) (svc : Str → Str → Str)
    (chunk contextPrompt task outputFormat : Str) (chunkNum totalChunks : Nat) : JValue :=
  let systemPrompt := createChunkSystemPrompt task outputFormat chunkNum totalChunks
  let userPrompt := contextPrompt ++ chars "Please process this chunk (" ++ natStr chunkNum ++
    chars "/" ++ natStr totalChunks ++ chars "):\n\n" ++ chunk
  let result := svc systemPrompt userPrompt
  if outputFormat = chars "structured_json" then
    match jparse result with
    | some (.obj kvs) => .obj (jInsert kvs (chars "chunk_number") (.num chunkNum))
    | some j => j
      -- a valid but non-dict JSON parse would make the Python item
      -- assignment `parsed_result["chunk_number"] = ...` raise TypeError;
      -- the claims only exercise dict parses
    | none => .obj [(chars "raw_response", .str result), (chars "format", .str (chars "text")),
        (chars "chunk_number", .num chunkNum)]
  else .obj [(chars "content", .str result), (chars "format", .str outputFormat),
    (chars "chunk_number", .num chunkNum)]

/-- The rolling-context update of `_process_with_chunking`
(`ai_processor.py:161-167`), operating on the raw parsed value exactly as
Python does.  The `summary` branch stores the raw value with no truncation.
The `content` branch first evaluates `len(chunk_result["content"])` — a
TypeError for a number, boolean or `None` — then, when the length exceeds
500, computes `content[:500] + "..."`: a truncated string for a string, a
TypeError for a list (`list + str`) or a dict (unsliceable); when the length
is within 500 it stores the raw value, which may be an arbitrarily large
container.  The fallback stores `str(chunk_result)` sliced the same way,
always a string of at most 503 characters. -/
def newContextSummary (outputFormat : Str) (chunkResult : JValue) : Except PyErr JValue :=
  if outputFormat = chars "structured_json" ∧ (objLookup chunkResult (chars "summary")).isSome then
    .ok ((objLookup chunkResult (chars "summary")).getD .null)
  else
    match objLookup chunkResult (chars "content") with
    | some c =>
      match pyLenOf c with
      | none => .error .typeError
      | some n =>
        if n > 500 then
          match c with
          | .str s => .ok (.str (s.take 500 ++ chars "..."))
          | _ => .error .typeError
        else .ok c
    | none =>
      if (pyStr chunkResult).length > 500 then
        .ok (.str ((pyStr chunkResult).take 500 ++ chars "..."))
      else .ok (.str (pyStr chunkResult))

/-- The chunk result of one loop iteration of `_process_with_chunking`
(`ai_processor.py:146-158`): the context prompt interpolates the current
`context_summary` — of whatever type — via its f-string (`str`) rendering. -/
def loopChunkResult (jparse : Str → Option JValue) (svc : Str → Str → Str)
    (task outputFormat : Str) (total i : Nat) (ctxSummary : JValue) (chunk : Str) : JValue :=
  processChunkWithContext jparse svc chunk
    (if i = 0 then [] else chars "Previous context summary: " ++ pyStr ctxSummary ++ chars "\n\n")
    task outputFormat (i + 1) total

/-- The chunk loop of `_process_with_chunking` (`ai_processor.py:145-167`),
recorded as a trace: for each chunk, the raw `context_summary` value held
when its iteration began, and the chunk result.  A TypeError raised by the
rolling-context update propagates out of the loop (Python discards the
results accumulated so far).  `i` is the 0-based loop index. -/
def chunkLoopGo (jparse : Str → Option JValue) (svc : Str → Str → Str)
    (task outputFormat : Str) (total : Nat) :
    Nat → JValue → List Str → Except PyErr (List (JValue × JValue))
  | _, _, [] => .ok []
  | i, ctxSummary, chunk :: rest =>
    let r := loopChunkResult jparse svc task outputFormat total i ctxSummary chunk
    match newContextSummary outputFormat r with
    | .error e => .error e
    | .ok ctx2 =>
      match chunkLoopGo jparse svc task outputFormat total (i + 1) ctx2 rest with
      | .error e => .error e
      | .ok tr => .ok ((ctxSummary, r) :: tr)

/-- The chunk loop started as in `ai_processor.py:140-145`: `context_summary`
is the empty string, index 0. -/
def chunkLoop (jparse : Str → Option JValue) (svc : Str → Str → Str)
    (task outputFormat : Str) (chunks : List Str) : Except PyErr (List (JValue × JValue)) :=
  chunkLoopGo jparse svc task outputFormat chunks.length 0 (.str []) chunks

/-- The accumulators of `_combine_json_results` (`ai_processor.py:269-276`).
The `images_by_page` sub-dict of `images_analysis` is initialized `{}` and
never updated in the loop, so it is not carried here. -/
structure CombineAcc where
  summaries : List Str
  allKeyTopics : List JValue
  allImportantPoints : List JValue
  allInsights : List JValue
  allRecommendations : List JValue
  structuredContent : List (Str × JValue)
  iaTotal : Int
  iaContexts : List JValue

/-- The summary accumulation (`ai_processor.py:280-281`). -/
def stepSummary (i : Nat) (kvs : List (Str × JValue)) (acc : CombineAcc) : CombineAcc :=
  match jlookup kvs (chars "summary") with
  | some v => { acc with summaries := acc.summaries ++ [chars "Chunk " ++ natStr (i + 1) ++ chars ": " ++ pyStr v] }
  | none => acc

/-- `all_X.extend(result[k])` for a list-valued field
(`ai_processor.py:283-293`).  Python's `list.extend` iterates any iterable
and raises TypeError on non-iterables; the claims restrict attention to
list-valued fields (see `wfResult`). -/
def extendList (kvs : List (Str × JValue)) (k : Str) (cur : List JValue) : List JValue :=
  match jlookup kvs k with
  | some (.arr xs) => cur ++ xs
  | some _ => cur
  | none => cur

/-- The structured-content namespacing (`ai_processor.py:295-297`): each key
is prefixed with its originating chunk number. -/
def stepStructured (i : Nat) (kvs : List (Str × JValue)) (acc : CombineAcc) : CombineAcc :=
  match jlookup kvs (chars "structured_content") with
  | some (.obj kvs2) =>
    { acc with structuredContent :=
        kvs2.foldl (fun sc kv => jInsert sc (chars "chunk_" ++ natStr (i + 1) ++ chars "_" ++ kv.1) kv.2) acc.structuredContent }
  | some _ => acc
    -- a non-dict value would make Python's `.items()` raise; excluded by `wfResult`
  | none => acc

/-- `img_analysis.get("total_images", 0)` (`ai_processor.py:301`); a present
non-integer value would make Python's `+=` raise and is excluded by
`wfResult`. -/
def iaGetTotal (kvs2 : List (Str × JValue)) : Int :=
  match jlookup kvs2 (chars "total_images") with
  | some (.num n) => n
  | some _ => 0
  | none => 0

/-- `img_analysis.get("image_contexts", [])` (`ai_processor.py:302`). -/
def iaGetContexts (kvs2 : List (Str × JValue)) : List JValue :=
  match jlookup kvs2 (chars "image_contexts") with
  | some (.arr xs) => xs
  | some _ => []
  | none => []

/-- The image-analysis aggregation (`ai_processor.py:299-302`): counts are
summed, contexts concatenated (no deduplication). -/
def stepImages (kvs : List (Str × JValue)) (acc : CombineAcc) : CombineAcc :=
  match jlookup kvs (chars "images_analysis") with
  | some (.obj kvs2) =>
    { acc with iaTotal := acc.iaTotal + iaGetTotal kvs2, iaContexts := acc.iaContexts ++ iaGetContexts kvs2 }
  | some _ => acc
    -- a non-dict value would make Python's `.get` raise; excluded by `wfResult`
  | none => acc

/-- One iteration of the combining loop (`ai_processor.py:278-302`);
non-dict results are skipped by the `isinstance` guard of line 279. -/
def combineStep (acc : CombineAcc) (ir : Nat × JValue) : CombineAcc :=
  match ir.2 with
  | .obj kvs =>
    let acc := stepSummary ir.1 kvs acc
    let acc := { acc with allKeyTopics := extendList kvs (chars "key_topics") acc.allKeyTopics }
    let acc := { acc with allImportantPoints := extendList kvs (chars "important_points") acc.allImportantPoints }
    let acc := { acc with allInsights := extendList kvs (chars "insights") acc.allInsights }
    let acc := { acc with allRecommendations := extendList kvs (chars "recommendations") acc.allRecommendations }
    let acc := stepStructured ir.1 kvs acc
    stepImages kvs acc
  | _ => acc

/-- `list(set(x)) if x else []` (`ai_processor.py:307-312`): `pySetList`
models Python's `list(set(...))`, whose contract (membership-preserving,
duplicate-free, order arbitrary) is stated as hypotheses where needed. -/
def setIfNonempty (pySetList : List JValue → List JValue) (xs : List JValue) : List JValue :=
  match xs with
  | [] => []
  | _ => pySetList xs

/-- `AIProcessor._combine_json_results` (`ai_processor.py:267-320`). -/
def combineJsonResults (pySetList : List JValue → List JValue)
    (chunkResults : List JValue) (task : Str) : JValue :=
  let acc := chunkResults.enum.foldl combineStep ⟨[], [], [], [], [], [], 0, []⟩
  .obj [
    (chars "summary", .str (match acc.summaries with
      | [] => chars "Content processed across multiple chunks"
      | _ => List.intercalate (chars " ") acc.summaries)),
    (chars "key_topics", .arr (setIfNonempty pySetList acc.allKeyTopics)),
    (chars "important_points", .arr (setIfNonempty pySetList acc.allImportantPoints)),
    (chars "structured_content", .obj acc.structuredContent),
    (chars "images_analysis", .obj [
      (chars "total_images", .num acc.iaTotal),
      (chars "images_by_page", .obj []),
      (chars "image_contexts", .arr acc.iaContexts)]),
    (chars "insights", .arr (setIfNonempty pySetList acc.allInsights)),
    (chars "recommendations", .arr (setIfNonempty pySetList acc.allRecommendations)),
    (chars "processing_info", .obj [
      (chars "total_chunks", .num chunkResults.length),
      (chars "chunked_processing", .bool true),
      (chars "task", .str task)])]

/-- One labelled part of `_combine_text_results` (`ai_processor.py:326-332`). -/
def textResultPart (i : Nat) (r : JValue) : Str :=
  match objLookup r (chars "content") with
  | some v => chars "--- Chunk " ++ natStr (i + 1) ++ chars " ---\n" ++ pyStr v
  | none =>
    match objLookup r (chars "raw_response") with
    | some v => chars "--- Chunk " ++ natStr (i + 1) ++ chars " ---\n" ++ pyStr v
    | none => chars "--- Chunk " ++ natStr (i + 1) ++ chars " ---\n" ++ pyStr r

/-- `AIProcessor._combine_text_results` (`ai_processor.py:322-341`). -/
def combineTextResults (chunkResults : List JValue) (outputFormat : Str) : JValue :=
  .obj [
    (chars "content", .str (List.intercalate (chars "\n\n")
      (chunkResults.enum.map (fun p => textResultPart p.1 p.2)))),
    (chars "format", .str outputFormat),
    (chars "processing_info", .obj [
      (chars "total_chunks", .num chunkResults.length),
      (chars "chunked_processing", .bool true)])]

/-- `AIProcessor._combine_chunk_results` (`ai_processor.py:260-265`). -/
def combineChunkResults (pySetList : List JValue → List JValue)
    (chunkResults : List JValue) (outputFormat task : Str) : JValue :=
  if outputFormat = chars "structured_json" then combineJsonResults pySetList chunkResults task
  else combineTextResults chunkResults outputFormat

/-- The chunk-size computation of `_process_with_chunking`
(`ai_processor.py:128-134`): the caller's override, or
`max_input_tokens - system_tokens - 1000`.  No positivity check is
performed anywhere. -/
def computedChunkSize (tok : Str → Nat) (maxInputTokens : Nat)
    (task outputFormat : Str) (chunkSizeArg : Option Int) : Int :=
  match chunkSizeArg with
  | some c => c
  | none => (maxInputTokens : Int) - (tok (createSystemPrompt task outputFormat) : Int) - 1000

/-- `AIProcessor._process_with_chunking` (`ai_processor.py:124-170`).
`maxInputTokens` is the object's `max_input_tokens` field.  The progress
print of line 143 references `sys`, which is not a module-level name, so
the name lookup raises before the chunk loop begins; the `.ok` branch
(the loop and the merge) is therefore unreachable but translated anyway. -/
def processWithChunking (tok : Str → Nat) (maxInputTokens : Nat)
    (jparse : Str → Option JValue) (svc : Str → Str → Str)
    (pySetList : List JValue → List JValue)
    (content task outputFormat : Str) (chunkSizeArg : Option Int) :
    Except PyErr JValue × List AIEvent :=
  let chunkSize : Int := computedChunkSize tok maxInputTokens task outputFormat chunkSizeArg
  let chunks := splitContentIntoChunks tok content chunkSize
  match evalName (chars "sys") with
  | .error e => (.error e, [.split chunkSize chunks.length])
  | .ok _ =>
    match chunkLoop jparse svc task outputFormat chunks with
    | .error e => (.error e, [.split chunkSize chunks.length])
    | .ok trace =>
      (.ok (combineChunkResults pySetList (trace.map Prod.snd) outputFormat task),
       [.split chunkSize chunks.length, .merge trace.length])

/-- `AIProcessor.process_document` (`ai_processor.py:50-90`).  On the
over-budget path, line 89 prints to `sys.stderr`: the f-string argument
evaluates, then the lookup of the unbound name `sys` raises `NameError`
before `_process_with_chunking` is called. -/
def processDocument (tok : Str → Nat) (maxInputTokens : Nat)
    (jparse : Str → Option JValue) (svc : Str → Str → Str)
    (pySetList : List JValue → List JValue)
    (doc : PyDocument) (task outputFormat : Str) (chunkSizeArg : Option Int) :
    Except PyErr JValue × List AIEvent :=
  let content := prepareContentForAI doc
  let contentTokens := tok content
  if contentTokens ≤ maxInputTokens then
    let pr := processSingleChunk jparse svc content task outputFormat
    (.ok pr.1, pr.2)
  else
    match evalName (chars "sys") with
    | .error e => (.error e, [])
    | .ok _ => processWithChunking tok maxInputTokens jparse svc pySetList content task outputFormat chunkSizeArg

/-- The model context-window table (`ai_processor.py:29-35`) with its
default for unknown models (line 38). -/
def modelLimit (model : Str) : Nat :=
  match (([
    (chars "gpt-4o-mini", 128000),
    (chars "gpt-4o", 128000),
    (chars "gpt-4", 8192),
    (chars "gpt-3.5-turbo", 16384),
    (chars "gpt-3.5-turbo-16k", 16384)] : List (Str × Nat)).find? (fun p => p.1 = model)) with
  | some p => p.2
  | none => 128000

/-- `self.max_input_tokens = int(self.model_limits.get(model, 128000) * 0.8)`
(`ai_processor.py:38`); for every value of the table (and the default) the
float computation agrees with `n * 8 / 10` in integer arithmetic. -/
def maxInputTokensFor (model : Str) : Nat := modelLimit model * 8 / 10

theorem pyStrip_infix_self (s : Str) : pyStrip s <:+: s := by
  have h1 : s.dropWhile pySpace <:+ s := List.dropWhile_suffix pySpace
  have h2 : (s.dropWhile pySpace).reverse.dropWhile pySpace <:+ (s.dropWhile pySpace).reverse :=
    List.dropWhile_suffix pySpace
  have h3 : ((s.dropWhile pySpace).reverse.dropWhile pySpace).reverse <+: s.dropWhile pySpace :=
    List.reverse_suffix.mp (by simpa using h2)
  exact (h3.isInfix).trans h1.isInfix

theorem pyStrip_length_le (s : Str) : (pyStrip s).length ≤ s.length :=
  (pyStrip_infix_self s).length_le

theorem splitSepF_nil (s0 : Char) (stail : Str) (fuel : Nat) :
    splitSepF s0 stail fuel [] = [[]] := by
  cases fuel <;> simp [splitSepF]

theorem splitSepF_cons_pos (s0 : Char) (stail : Str) (fuel : Nat) (c : Char) (rest : Str)
    (h : s0 = c ∧ stail.isPrefixOf rest) :
    splitSepF s0 stail (fuel + 1) (c :: rest) =
      [] :: splitSepF s0 stail fuel (rest.drop stail.length) := by
  simp only [splitSepF]
  rw [if_pos h]

theorem splitSepF_cons_neg_nil (s0 : Char) (stail : Str) (fuel : Nat) (c : Char) (rest : Str)
    (h : ¬ (s0 = c ∧ stail.isPrefixOf rest)) (hres : splitSepF s0 stail fuel rest = []) :
    splitSepF s0 stail (fuel + 1) (c :: rest) = [[c]] := by
  simp only [splitSepF]
  rw [if_neg h, hres]

theorem splitSepF_cons_neg_cons (s0 : Char) (stail : Str) (fuel : Nat) (c : Char) (rest : Str)
    (h' : Str) (t' : List Str)
    (h : ¬ (s0 = c ∧ stail.isPrefixOf rest)) (hres : splitSepF s0 stail fuel rest = h' :: t') :
    splitSepF s0 stail (fuel + 1) (c :: rest) = (c :: h') :: t' := by
  simp only [splitSepF]
  rw [if_neg h, hres]

theorem splitSepF_pieces (s0 : Char) (stail : Str) : ∀ fuel l,
    (∀ c ∈ splitSepF s0 stail fuel l, c <:+: l) ∧
    (∀ h t, splitSepF s0 stail fuel l = h :: t → h <+: l)
  | fuel, [] => by
    rw [splitSepF_nil]
    constructor
    · intro c hc; simp at hc; simp [hc]
    · intro h t het; simp at het; simp [het.1]
  | 0, c :: rest => by
    constructor
    · intro c' hc; simp [splitSepF] at hc; simp [hc]
    · intro h t het; simp [splitSepF] at het; simp [het.1]
  | fuel + 1, c :: rest => by
    by_cases hcond : s0 = c ∧ stail.isPrefixOf rest
    · rw [splitSepF_cons_pos s0 stail fuel c rest hcond]
      constructor
      · intro c' hc'
        rcases List.mem_cons.mp hc' with h | h
        · simp [h]
        · exact (((splitSepF_pieces s0 stail fuel (rest.drop stail.length)).1 c' h).trans
            (List.drop_suffix _ _).isInfix).trans (List.suffix_cons c rest).isInfix
      · intro h t het
        rw [List.cons.injEq] at het
        simp [← het.1]
    · rcases hres : splitSepF s0 stail fuel rest with _ | ⟨h', t'⟩
      · rw [splitSepF_cons_neg_nil s0 stail fuel c rest hcond hres]
        constructor
        · intro c' hc'; simp at hc'
          subst hc'
          exact (List.cons_prefix_cons.mpr ⟨rfl, by simp⟩).isInfix
        · intro h t het; simp at het
          obtain ⟨h1, h2⟩ := het
          subst h1
          exact List.cons_prefix_cons.mpr ⟨rfl, by simp⟩
      · have IH := splitSepF_pieces s0 stail fuel rest
        rw [splitSepF_cons_neg_cons s0 stail fuel c rest h' t' hcond hres]
        constructor
        · intro c' hc'
          rcases List.mem_cons.mp hc' with h | h
          · subst h
            exact (List.cons_prefix_cons.mpr ⟨rfl, IH.2 h' t' hres⟩).isInfix
          · exact (IH.1 c' (by rw [hres]; exact List.mem_cons_of_mem _ h)).trans
              (List.suffix_cons c rest).isInfix
        · intro h t het
          rw [List.cons.injEq] at het
          rw [← het.1]
          exact List.cons_prefix_cons.mpr ⟨rfl, IH.2 h' t' hres⟩

theorem splitSepF_no_sep (s0 : Char) (stail : Str) : ∀ fuel l, l.length ≤ fuel →
    ∀ c ∈ splitSepF s0 stail fuel l, ¬ (s0 :: stail) <:+: c
  | fuel, [] => by
    intro _ c hc
    rw [splitSepF_nil] at hc
    simp at hc; simp [hc]
  | 0, c :: rest => by intro hlen; simp at hlen
  | fuel + 1, c :: rest => by
    intro hlen c' hc'
    have hrest : rest.length ≤ fuel := by simpa using hlen
    by_cases hcond : s0 = c ∧ stail.isPrefixOf rest
    · rw [splitSepF_cons_pos s0 stail fuel c rest hcond] at hc'
      rcases List.mem_cons.mp hc' with h | h
      · simp [h]
      · exact splitSepF_no_sep s0 stail fuel (rest.drop stail.length)
          (le_trans (by simp) hrest) c' h
    · rcases hres : splitSepF s0 stail fuel rest with _ | ⟨h', t'⟩
      · rw [splitSepF_cons_neg_nil s0 stail fuel c rest hcond hres] at hc'
        simp at hc'
        subst hc'
        intro hinf
        rcases List.infix_cons_iff.mp hinf with hp | hi
        · rcases List.cons_prefix_cons.mp hp with ⟨rfl, hst⟩
          have : stail = [] := List.prefix_nil.mp hst
          exact hcond ⟨rfl, by simp [this]⟩
        · simp at hi
      · rw [splitSepF_cons_neg_cons s0 stail fuel c rest h' t' hcond hres] at hc'
        rcases List.mem_cons.mp hc' with h | h
        · subst h
          intro hinf
          rcases List.infix_cons_iff.mp hinf with hp | hi
          · rcases List.cons_prefix_cons.mp hp with ⟨rfl, hst⟩
            have hpre : h' <+: rest := (splitSepF_pieces s0 stail fuel rest).2 h' t' hres
            exact hcond ⟨rfl, List.isPrefixOf_iff_prefix.mpr (hst.trans hpre)⟩
          · exact splitSepF_no_sep s0 stail fuel rest hrest h'
              (by rw [hres]; exact List.mem_cons_self h' t') hi
        · exact splitSepF_no_sep s0 stail fuel rest hrest c'
            (by rw [hres]; exact List.mem_cons_of_mem _ h)

theorem splitSepF_single (s0 : Char) (stail : Str) : ∀ fuel l, l.length ≤ fuel →
    ¬ (s0 :: stail) <:+: l → splitSepF s0 stail fuel l = [l]
  | fuel, [] => by intro _ _; rw [splitSepF_nil]
  | 0, c :: rest => by intro hlen; simp at hlen
  | fuel + 1, c :: rest => by
    intro hlen hocc
    have hrest : rest.length ≤ fuel := by simpa using hlen
    have hcond : ¬ (s0 = c ∧ stail.isPrefixOf rest) := by
      rintro ⟨rfl, hst⟩
      exact hocc (List.cons_prefix_cons.mpr ⟨rfl, List.isPrefixOf_iff_prefix.mp hst⟩).isInfix
    rw [splitSepF_cons_neg_cons s0 stail fuel c rest rest [] hcond
      (splitSepF_single s0 stail fuel rest hrest
        (fun hi => hocc (hi.trans (List.suffix_cons c rest).isInfix)))]

theorem pySplit_cons (s0 : Char) (stail l : Str) :
    pySplit (s0 :: stail) l = splitSepF s0 stail l.length l := rfl

theorem pySplit_pieces (s0 : Char) (stail l : Str) :
    ∀ c ∈ pySplit (s0 :: stail) l, c <:+: l :=
  (splitSepF_pieces s0 stail l.length l).1

theorem pySplit_no_sep (s0 : Char) (stail l : Str) :
    ∀ c ∈ pySplit (s0 :: stail) l, ¬ (s0 :: stail) <:+: c :=
  splitSepF_no_sep s0 stail l.length l le_rfl

theorem pySplit_single (s0 : Char) (stail l : Str) (h : ¬ (s0 :: stail) <:+: l) :
    pySplit (s0 :: stail) l = [l] :=
  splitSepF_single s0 stail l.length l le_rfl h

/-- The invariant a single chunk satisfies: within budget, or free of the
paragraph delimiter `"\n\n"` (i.e. a single paragraph). -/
def PChunk (tok : Str → Nat) (B : Int) (c : Str) : Prop :=
  (tok c : Int) ≤ B ∨ ¬ nnSep <:+: c

/-- The loop invariant of `_split_content_into_chunks`: every emitted chunk
and the accumulator satisfy `PChunk`. -/
def SplitInv (tok : Str → Nat) (B : Int) (st : SplitState) : Prop :=
  (∀ c ∈ st.chunks, PChunk tok B c) ∧ PChunk tok B st.current

theorem PChunk_strip {tok : Str → Nat} {B : Int} {s : Str}
    (hstrip : ∀ u, tok (pyStrip u) ≤ tok u) (h : PChunk tok B s) :
    PChunk tok B (pyStrip s) := by
  rcases h with h | h
  · exact Or.inl (le_trans (Int.ofNat_le.mpr (hstrip s)) h)
  · exact Or.inr fun hn => h (hn.trans (pyStrip_infix_self s))

theorem foldl_SplitInv {α : Type} {tok : Str → Nat} {B : Int}
    (f : SplitState → α → SplitState) (P : α → Prop)
    (hf : ∀ st a, P a → SplitInv tok B st → SplitInv tok B (f st a)) :
    ∀ (l : List α) (st : SplitState), (∀ a ∈ l, P a) → SplitInv tok B st →
      SplitInv tok B (l.foldl f st)
  | [], _, _, hI => hI
  | a :: l, st, hP, hI =>
    foldl_SplitInv f P hf l (f st a) (fun b hb => hP b (List.mem_cons_of_mem a hb))
      (hf st a (hP a (List.mem_cons_self a l)) hI)

theorem addSentence_inv {tok : Str → Nat} {B : Int} {st : SplitState} {sent : Str}
    (hstrip : ∀ u, tok (pyStrip u) ≤ tok u)
    (hs : ¬ nnSep <:+: sent) (hI : SplitInv tok B st) :
    SplitInv tok B (addSentence tok B st sent) := by
  unfold addSentence
  split
  · split
    · refine ⟨fun c hc => ?_, Or.inr hs⟩
      rcases List.mem_append.mp hc with h | h
      · exact hI.1 c h
      · simp at h; subst h; exact PChunk_strip hstrip hI.2
    · refine ⟨fun c hc => ?_, hI.2⟩
      rcases List.mem_append.mp hc with h | h
      · exact hI.1 c h
      · simp at h; subst h; exact Or.inr hs
  · next hle =>
    refine ⟨hI.1, ?_⟩
    split
    · next hne =>
      exact Or.inl (by rw [← List.append_assoc]; exact not_lt.mp hle)
    · next hne =>
      simp at hne
      exact Or.inr (by simpa [hne] using hs)

theorem addParagraph_inv {tok : Str → Nat} {B : Int} {st : SplitState} {para : Str}
    (hstrip : ∀ u, tok (pyStrip u) ≤ tok u)
    (hp : ¬ nnSep <:+: para) (hI : SplitInv tok B st) :
    SplitInv tok B (addParagraph tok B st para) := by
  unfold addParagraph
  split
  · split
    · refine ⟨fun c hc => ?_, Or.inr hp⟩
      rcases List.mem_append.mp hc with h | h
      · exact hI.1 c h
      · simp at h; subst h; exact PChunk_strip hstrip hI.2
    · refine foldl_SplitInv (addSentence tok B) (fun s => ¬ nnSep <:+: s)
        (fun st' a ha hI' => addSentence_inv hstrip ha hI') _ st ?_ hI
      intro s hsm
      exact fun hn => hp (hn.trans (pySplit_pieces '.' [' '] para s hsm))
  · next hle =>
    refine ⟨hI.1, ?_⟩
    split
    · exact Or.inl (by rw [← List.append_assoc]; exact not_lt.mp hle)
    · next hne =>
      simp at hne
      exact Or.inr (by simpa [hne] using hp)

theorem addSection_inv {tok : Str → Nat} {B : Int} {st : SplitState} {sec : Str}
    (hstrip : ∀ u, tok (pyStrip u) ≤ tok u) (hI : SplitInv tok B st) :
    SplitInv tok B (addSection tok B st sec) := by
  unfold addSection
  split
  · refine foldl_SplitInv (addParagraph tok B) (fun s => ¬ nnSep <:+: s)
      (fun st' a ha hI' => addParagraph_inv hstrip ha hI') _ st ?_ hI
    intro s hsm
    exact pySplit_no_sep '\n' ['\n'] sec s hsm
  · next hsec =>
    have hsecle : (tok sec : Int) ≤ B := not_lt.mp hsec
    split
    · split
      · refine ⟨fun c hc => ?_, Or.inl hsecle⟩
        rcases List.mem_append.mp hc with h | h
        · exact hI.1 c h
        · simp at h; subst h; exact PChunk_strip hstrip hI.2
      · refine ⟨fun c hc => ?_, hI.2⟩
        rcases List.mem_append.mp hc with h | h
        · exact hI.1 c h
        · simp at h; subst h; exact Or.inl hsecle
    · next hle =>
      refine ⟨hI.1, ?_⟩
      split
      · exact Or.inl (by rw [← List.append_assoc]; exact not_lt.mp hle)
      · next hne =>
        simp at hne
        exact Or.inl (by simpa [hne] using hsecle)

theorem splitContentIntoChunks_PChunk {tok : Str → Nat} {B : Int} {content : Str}
    (hstrip : ∀ u, tok (pyStrip u) ≤ tok u) :
    ∀ c ∈ splitContentIntoChunks tok content B, PChunk tok B c := by
  intro c hc
  simp only [splitContentIntoChunks] at hc
  have hI : SplitInv tok B
      ((restoreHeaders (pySplit secSep content)).foldl (addSection tok B) { chunks := [], current := [] }) := by
    refine foldl_SplitInv (addSection tok B) (fun _ => True)
      (fun _ _ _ hI => addSection_inv hstrip hI) _ _ (fun _ _ => trivial) ?_
    exact ⟨fun c hc => by simp at hc, Or.inr (by decide)⟩
  split at hc
  · rcases List.mem_append.mp hc with h | h
    · exact hI.1 c h
    · simp at h; subst h; exact PChunk_strip hstrip hI.2
  · exact hI.1 c hc

/-- Hashable scalar check: Python's `set` requires hashable elements; the
claims about merge deduplication quantify over string-valued list fields. -/
def atomicStrB : JValue → Bool
  | .str _ => true
  | _ => false

/-- A list-valued merge field, when present, must hold a list of strings
(so Python's `extend` and `set` behave as the claims describe). -/
def wfListField (kvs : List (Str × JValue)) (k : Str) : Bool :=
  match jlookup kvs k with
  | none => true
  | some (.arr xs) => xs.all atomicStrB
  | some _ => false

/-- A present `structured_content` must be a dict (else Python's `.items()`
raises). -/
def wfSC (kvs : List (Str × JValue)) : Bool :=
  match jlookup kvs (chars "structured_content") with
  | none => true
  | some (.obj _) => true
  | some _ => false

/-- A present `images_analysis` must be a dict whose `total_images` (if
present) is an integer and whose `image_contexts` (if present) is a list
(else Python's `.get`/`+=`/`extend` raise). -/
def wfIA (kvs : List (Str × JValue)) : Bool :=
  match jlookup kvs (chars "images_analysis") with
  | none => true
  | some (.obj kvs2) =>
    (match jlookup kvs2 (chars "total_images") with
     | none => true
     | some (.num _) => true
     | some _ => false) &&
    (match jlookup kvs2 (chars "image_contexts") with
     | none => true
     | some (.arr _) => true
     | some _ => false)
  | some _ => false

/-- Well-formedness of one piece result for `_combine_json_results`: the
inputs on which the Python loop runs without raising and with the list/set
semantics the claims describe. -/
def wfResult : JValue → Bool
  | .obj kvs =>
    wfListField kvs (chars "key_topics") && wfListField kvs (chars "important_points") &&
    wfListField kvs (chars "insights") && wfListField kvs (chars "recommendations") &&
    wfSC kvs && wfIA kvs
  | _ => true

/-- The contribution of one piece result to a list-valued merge field:
its `k` entry when it is a dict holding a list there, else nothing. -/
def extractListField (k : Str) (r : JValue) : List JValue :=
  match r with
  | .obj kvs =>
    match jlookup kvs k with
    | some (.arr xs) => xs
    | some _ => []
    | none => []
  | _ => []

/-- The contribution of one piece result to the merged image count. -/
def extractIaTotal (r : JValue) : Int :=
  match r with
  | .obj kvs =>
    match jlookup kvs (chars "images_analysis") with
    | some (.obj kvs2) => iaGetTotal kvs2
    | some _ => 0
    | none => 0
  | _ => 0

/-- The contribution of one piece result to the merged image contexts. -/
def extractIaContexts (r : JValue) : List JValue :=
  match r with
  | .obj kvs =>
    match jlookup kvs (chars "images_analysis") with
    | some (.obj kvs2) => iaGetContexts kvs2
    | some _ => []
    | none => []
  | _ => []

theorem mem_extractListField (k : Str) (r : JValue) (v : JValue) :
    v ∈ extractListField k r ↔ ∃ ys, objLookup r k = some (.arr ys) ∧ v ∈ ys := by
  cases r <;> simp only [extractListField, objLookup] <;> try simp
  next kvs =>
  rcases h : jlookup kvs k with _ | w
  · simp
  · cases w <;> simp

theorem stepSummary_passes (i : Nat) (kvs : List (Str × JValue)) (acc : CombineAcc) :
    (stepSummary i kvs acc).allKeyTopics = acc.allKeyTopics ∧
    (stepSummary i kvs acc).allImportantPoints = acc.allImportantPoints ∧
    (stepSummary i kvs acc).allInsights = acc.allInsights ∧
    (stepSummary i kvs acc).allRecommendations = acc.allRecommendations ∧
    (stepSummary i kvs acc).iaTotal = acc.iaTotal ∧
    (stepSummary i kvs acc).iaContexts = acc.iaContexts := by
  unfold stepSummary
  split <;> exact ⟨rfl, rfl, rfl, rfl, rfl, rfl⟩

theorem stepStructured_passes (i : Nat) (kvs : List (Str × JValue)) (acc : CombineAcc) :
    (stepStructured i kvs acc).allKeyTopics = acc.allKeyTopics ∧
    (stepStructured i kvs acc).allImportantPoints = acc.allImportantPoints ∧
    (stepStructured i kvs acc).allInsights = acc.allInsights ∧
    (stepStructured i kvs acc).allRecommendations = acc.allRecommendations ∧
    (stepStructured i kvs acc).iaTotal = acc.iaTotal ∧
    (stepStructured i kvs acc).iaContexts = acc.iaContexts := by
  unfold stepStructured
  split <;> exact ⟨rfl, rfl, rfl, rfl, rfl, rfl⟩

theorem stepImages_proj (kvs : List (Str × JValue)) (acc : CombineAcc) :
    (stepImages kvs acc).allKeyTopics = acc.allKeyTopics ∧
    (stepImages kvs acc).allImportantPoints = acc.allImportantPoints ∧
    (stepImages kvs acc).allInsights = acc.allInsights ∧
    (stepImages kvs acc).allRecommendations = acc.allRecommendations ∧
    (stepImages kvs acc).iaTotal = acc.iaTotal + extractIaTotal (.obj kvs) ∧
    (stepImages kvs acc).iaContexts = acc.iaContexts ++ extractIaContexts (.obj kvs) := by
  rcases h : jlookup kvs (chars "images_analysis") with _ | w
  · simp [stepImages, extractIaTotal, extractIaContexts, h]
  · cases w <;> simp [stepImages, extractIaTotal, extractIaContexts, h]

theorem extendList_eq (kvs : List (Str × JValue)) (k : Str) (cur : List JValue) :
    extendList kvs k cur = cur ++ extractListField k (.obj kvs) := by
  rcases h : jlookup kvs k with _ | w
  · simp [extendList, extractListField, h]
  · cases w <;> simp [extendList, extractListField, h]

theorem combineStep_kt (acc : CombineAcc) (p : Nat × JValue) :
    (combineStep acc p).allKeyTopics = acc.allKeyTopics ++ extractListField (chars "key_topics") p.2 := by
  rcases p with ⟨i, r⟩
  cases r
  case obj kvs =>
    simp only [combineStep]
    rw [(stepImages_proj kvs _).1, (stepStructured_passes i kvs _).1]
    show extendList kvs (chars "key_topics") (stepSummary i kvs acc).allKeyTopics = _
    rw [(stepSummary_passes i kvs acc).1, extendList_eq]
  all_goals simp [combineStep, extractListField]

theorem combineStep_ip (acc : CombineAcc) (p : Nat × JValue) :
    (combineStep acc p).allImportantPoints = acc.allImportantPoints ++ extractListField (chars "important_points") p.2 := by
  rcases p with ⟨i, r⟩
  cases r
  case obj kvs =>
    simp only [combineStep]
    rw [(stepImages_proj kvs _).2.1, (stepStructured_passes i kvs _).2.1]
    show extendList kvs (chars "important_points") (stepSummary i kvs acc).allImportantPoints = _
    rw [(stepSummary_passes i kvs acc).2.1, extendList_eq]
  all_goals simp [combineStep, extractListField]

theorem combineStep_ins (acc : CombineAcc) (p : Nat × JValue) :
    (combineStep acc p).allInsights = acc.allInsights ++ extractListField (chars "insights") p.2 := by
  rcases p with ⟨i, r⟩
  cases r
  case obj kvs =>
    simp only [combineStep]
    rw [(stepImages_proj kvs _).2.2.1, (stepStructured_passes i kvs _).2.2.1]
    show extendList kvs (chars "insights") (stepSummary i kvs acc).allInsights = _
    rw [(stepSummary_passes i kvs acc).2.2.1, extendList_eq]
  all_goals simp [combineStep, extractListField]

theorem combineStep_rec (acc : CombineAcc) (p : Nat × JValue) :
    (combineStep acc p).allRecommendations = acc.allRecommendations ++ extractListField (chars "recommendations") p.2 := by
  rcases p with ⟨i, r⟩
  cases r
  case obj kvs =>
    simp only [combineStep]
    rw [(stepImages_proj kvs _).2.2.2.1, (stepStructured_passes i kvs _).2.2.2.1]
    show extendList kvs (chars "recommendations") (stepSummary i kvs acc).allRecommendations = _
    rw [(stepSummary_passes i kvs acc).2.2.2.1, extendList_eq]
  all_goals simp [combineStep, extractListField]

theorem combineStep_iaTotal (acc : CombineAcc) (p : Nat × JValue) :
    (combineStep acc p).iaTotal = acc.iaTotal + extractIaTotal p.2 := by
  rcases p with ⟨i, r⟩
  cases r
  case obj kvs =>
    simp only [combineStep]
    rw [(stepImages_proj kvs _).2.2.2.2.1, (stepStructured_passes i kvs _).2.2.2.2.1,
      (stepSummary_passes i kvs acc).2.2.2.2.1]
  all_goals simp [combineStep, extractIaTotal]

theorem combineStep_iaContexts (acc : CombineAcc) (p : Nat × JValue) :
    (combineStep acc p).iaContexts = acc.iaContexts ++ extractIaContexts p.2 := by
  rcases p with ⟨i, r⟩
  cases r
  case obj kvs =>
    simp only [combineStep]
    rw [(stepImages_proj kvs _).2.2.2.2.2, (stepStructured_passes i kvs _).2.2.2.2.2,
      (stepSummary_passes i kvs acc).2.2.2.2.2]
  all_goals simp [combineStep, extractIaContexts]

theorem foldl_proj_append {β : Type} (proj : CombineAcc → List β) (ext : Nat × JValue → List β)
    (hstep : ∀ acc p, proj (combineStep acc p) = proj acc ++ ext p) :
    ∀ (l : List (Nat × JValue)) (acc : CombineAcc),
      proj (l.foldl combineStep acc) = proj acc ++ (l.map ext).flatten
  | [], acc => by simp
  | p :: t, acc => by
    rw [List.foldl_cons, foldl_proj_append proj ext hstep t _, hstep, List.map_cons,
      List.flatten_cons, List.append_assoc]

theorem foldl_proj_sum (proj : CombineAcc → Int) (ext : Nat × JValue → Int)
    (hstep : ∀ acc p, proj (combineStep acc p) = proj acc + ext p) :
    ∀ (l : List (Nat × JValue)) (acc : CombineAcc),
      proj (l.foldl combineStep acc) = proj acc + (l.map ext).sum
  | [], acc => by simp
  | p :: t, acc => by
    rw [List.foldl_cons, foldl_proj_sum proj ext hstep t _, hstep, List.map_cons,
      List.sum_cons]
    omega

theorem enum_map_comp {β : Type} (l : List JValue) (f : JValue → β) :
    l.enum.map (fun p => f p.2) = l.map f := by
  rw [show (fun p : Nat × JValue => f p.2) = f ∘ Prod.snd from rfl, ← List.map_map,
    List.enum_map_snd]

theorem chunkLoopGo_cons_err1 (jparse : Str → Option JValue) (svc : Str → Str → Str)
    (task outputFormat : Str) (total i : Nat) (ctx : JValue) (c : Str) (rest : List Str)
    (e : PyErr)
    (h : newContextSummary outputFormat
        (loopChunkResult jparse svc task outputFormat total i ctx c) = .error e) :
    chunkLoopGo jparse svc task outputFormat total i ctx (c :: rest) = .error e := by
  simp only [chunkLoopGo]
  rw [h]

theorem chunkLoopGo_cons_err2 (jparse : Str → Option JValue) (svc : Str → Str → Str)
    (task outputFormat : Str) (total i : Nat) (ctx : JValue) (c : Str) (rest : List Str)
    (ctx2 : JValue) (e : PyErr)
    (h1 : newContextSummary outputFormat
        (loopChunkResult jparse svc task outputFormat total i ctx c) = .ok ctx2)
    (h2 : chunkLoopGo jparse svc task outputFormat total (i + 1) ctx2 rest = .error e) :
    chunkLoopGo jparse svc task outputFormat total i ctx (c :: rest) = .error e := by
  simp only [chunkLoopGo, h1, h2]

theorem chunkLoopGo_cons_ok (jparse : Str → Option JValue) (svc : Str → Str → Str)
    (task outputFormat : Str) (total i : Nat) (ctx : JValue) (c : Str) (rest : List Str)
    (ctx2 : JValue) (tr : List (JValue × JValue))
    (h1 : newContextSummary outputFormat
        (loopChunkResult jparse svc task outputFormat total i ctx c) = .ok ctx2)
    (h2 : chunkLoopGo jparse svc task outputFormat total (i + 1) ctx2 rest = .ok tr) :
    chunkLoopGo jparse svc task outputFormat total i ctx (c :: rest) =
      .ok ((ctx, loopChunkResult jparse svc task outputFormat total i ctx c) :: tr) := by
  simp only [chunkLoopGo, h1, h2]

theorem chunkLoopGo_cons_inv (jparse : Str → Option JValue) (svc : Str → Str → Str)
    (task outputFormat : Str) (total i : Nat) (ctx : JValue) (c : Str) (rest : List Str)
    (tr : List (JValue × JValue))
    (h : chunkLoopGo jparse svc task outputFormat total i ctx (c :: rest) = .ok tr) :
    ∃ ctx2 tr', newContextSummary outputFormat
        (loopChunkResult jparse svc task outputFormat total i ctx c) = .ok ctx2 ∧
      chunkLoopGo jparse svc task outputFormat total (i + 1) ctx2 rest = .ok tr' ∧
      tr = (ctx, loopChunkResult jparse svc task outputFormat total i ctx c) :: tr' := by
  rcases hns : newContextSummary outputFormat
      (loopChunkResult jparse svc task outputFormat total i ctx c) with e | ctx2
  · rw [chunkLoopGo_cons_err1 jparse svc task outputFormat total i ctx c rest e hns] at h
    exact absurd h (by simp)
  · rcases hrec : chunkLoopGo jparse svc task outputFormat total (i + 1) ctx2 rest with e | tr'
    · rw [chunkLoopGo_cons_err2 jparse svc task outputFormat total i ctx c rest ctx2 e hns hrec] at h
      exact absurd h (by simp)
    · rw [chunkLoopGo_cons_ok jparse svc task outputFormat total i ctx c rest ctx2 tr' hns hrec] at h
      injection h with h
      exact ⟨ctx2, tr', rfl, hrec, h.symm⟩

theorem chunkLoopGo_head (jparse : Str → Option JValue) (svc : Str → Str → Str)
    (task outputFormat : Str) (total : Nat)
    (l : List Str) (i : Nat) (ctx : JValue) (p : JValue × JValue)
    (pt : List (JValue × JValue))
    (h : chunkLoopGo jparse svc task outputFormat total i ctx l = .ok (p :: pt)) :
    p.1 = ctx := by
  cases l with
  | nil => simp [chunkLoopGo] at h
  | cons c rest =>
    obtain ⟨ctx2, tr', _, _, h3⟩ :=
      chunkLoopGo_cons_inv jparse svc task outputFormat total i ctx c rest (p :: pt) h
    rw [List.cons.injEq] at h3
    rw [h3.1]

theorem chunkLoopGo_get_zero (jparse : Str → Option JValue) (svc : Str → Str → Str)
    (task outputFormat : Str) (total : Nat)
    (l : List Str) (i : Nat) (ctx : JValue) (tr : List (JValue × JValue))
    (h : chunkLoopGo jparse svc task outputFormat total i ctx l = .ok tr)
    (h0 : 0 < tr.length) :
    (tr.get ⟨0, h0⟩).1 = ctx := by
  rcases tr with _ | ⟨p, pt⟩
  · simp at h0
  · exact chunkLoopGo_head jparse svc task outputFormat total l i ctx p pt h

theorem chunkLoopGo_chain (jparse : Str → Option JValue) (svc : Str → Str → Str)
    (task outputFormat : Str) (total : Nat) :
    ∀ (l : List Str) (i : Nat) (ctx : JValue) (tr : List (JValue × JValue)),
      chunkLoopGo jparse svc task outputFormat total i ctx l = .ok tr →
      ∀ (j : Nat) (hj : j + 1 < tr.length),
        newContextSummary outputFormat ((tr.get ⟨j, Nat.lt_of_succ_lt hj⟩).2) =
          .ok ((tr.get ⟨j + 1, hj⟩).1)
  | [], i, ctx, tr, h, j, hj => by
    simp only [chunkLoopGo] at h
    injection h with h
    rw [← h] at hj
    simp at hj
  | c :: rest, i, ctx, tr, h, j, hj => by
    obtain ⟨ctx2, tr', h1, h2, h3⟩ :=
      chunkLoopGo_cons_inv jparse svc task outputFormat total i ctx c rest tr h
    subst h3
    match j with
    | 0 =>
      have hlen : 0 < tr'.length := by
        have := hj
        simp only [List.length_cons] at this
        omega
      rw [List.get_cons_succ]
      exact h1.trans (congrArg Except.ok
        (chunkLoopGo_get_zero jparse svc task outputFormat total rest (i + 1) ctx2 tr' h2 hlen).symm)
    | j' + 1 =>
      rw [List.get_cons_succ, List.get_cons_succ]
      exact chunkLoopGo_chain jparse svc task outputFormat total rest (i + 1) ctx2 tr' h2 j'
        (by simpa using hj)

theorem newContextSummary_content_str (outputFormat : Str) (r : JValue) (s : Str)
    (hn : ¬ (outputFormat = chars "structured_json" ∧ (objLookup r (chars "summary")).isSome = true))
    (hc : objLookup r (chars "content") = some (.str s)) :
    newContextSummary outputFormat r =
      if s.length > 500 then .ok (.str (s.take 500 ++ chars "...")) else .ok (.str s) := by
  unfold newContextSummary
  rw [if_neg hn, hc]
  rfl

theorem newContextSummary_content_arr (outputFormat : Str) (r : JValue) (xs : List JValue)
    (hn : ¬ (outputFormat = chars "structured_json" ∧ (objLookup r (chars "summary")).isSome = true))
    (hc : objLookup r (chars "content") = some (.arr xs)) :
    newContextSummary outputFormat r =
      if xs.length > 500 then .error .typeError else .ok (.arr xs) := by
  unfold newContextSummary
  rw [if_neg hn, hc]
  rfl

theorem newContextSummary_no_content (outputFormat : Str) (r : JValue)
    (hn : ¬ (outputFormat = chars "structured_json" ∧ (objLookup r (chars "summary")).isSome = true))
    (hc : objLookup r (chars "content") = none) :
    newContextSummary outputFormat r =
      if (pyStr r).length > 500 then .ok (.str ((pyStr r).take 500 ++ chars "..."))
      else .ok (.str (pyStr r)) := by
  unfold newContextSummary
  rw [if_neg hn, hc]

/-- C1: for every document whose serialized content has a token count
strictly greater than `max_input_tokens`, `process_document` raises a
`NameError` for the unimported name `sys` (at the status print of line 89)
before any content is split into chunks and before any completion-service
call is issued: the run ends in the error with an empty event trace, so the
chunked processing path never completes. -/
theorem c1_chunked_path_nameError (tok : Str → Nat) (maxInputTokens : Nat)
    (jparse : Str → Option JValue) (svc : Str → Str → Str)
    (pySetList : List JValue → List JValue) (doc : PyDocument)
    (task outputFormat : Str) (chunkSizeArg : Option Int)
    (h : tok (prepareContentForAI doc) > maxInputTokens) :
    processDocument tok maxInputTokens jparse svc pySetList doc task outputFormat chunkSizeArg =
      (.error (.nameError (chars "sys")), []) := by
  simp only [processDocument]
  rw [if_neg (not_le.mpr h)]
  rfl

/-- C1 witness: a minimal document over a zero budget. -/
theorem c1_chunked_path_nameError_witness :
    processDocument tokLen 0 (fun _ => none) (fun _ _ => []) (fun xs => xs)
      { meta := { source := chars "s", content_type := chars "text/plain", title := none },
        sections := [], images := [] }
      (chars "analyze and restructure") (chars "structured_json") none =
      (.error (.nameError (chars "sys")), []) :=
  c1_chunked_path_nameError tokLen 0 (fun _ => none) (fun _ _ => []) (fun xs => xs)
    { meta := { source := chars "s", content_type := chars "text/plain", title := none },
      sections := [], images := [] }
    (chars "analyze and restructure") (chars "structured_json") none (by decide)

/-- C2 counterexample: with the character-count token meter, content
`"ab\n\ncc. dd. eee"` and budget 10, the chunker emits the chunk
`"cc. dd. eee"` whose token count 11 exceeds the budget although it is not
a single atomic sentence: it contains the `". "` delimiter (so it was not
produced by the forced single-sentence escape, whose outputs are
`". "`-free fragments). -/
theorem c2_counterexample :
    splitContentIntoChunks tokLen (chars "ab\n\ncc. dd. eee") 10 =
      [chars "ab", chars "cc. dd. eee"] ∧
    (tokLen (chars "cc. dd. eee") : Int) > 10 ∧
    dsSep <:+: chars "cc. dd. eee" := by
  refine ⟨by decide, by decide, ?_⟩
  exact ⟨chars "cc", chars "dd. eee", by decide⟩

/-- C2 (amended): provided the token meter does not count a stripped string
higher than the original, every chunk emitted by
`_split_content_into_chunks` either has token count at most the budget or
contains no paragraph delimiter `"\n\n"` (it is a single paragraph — not
necessarily a single sentence: an oversized paragraph reached while the
accumulator is non-empty is emitted whole).  Moreover an addition that
lands exactly at the budget is included in the accumulator rather than
flushed, at the sentence, paragraph and section levels alike (overflow is
tested with strictly-greater-than). -/
theorem c2_budget_or_single_paragraph (tok : Str → Nat) (B : Int) (content : Str)
    (hstrip : ∀ u, tok (pyStrip u) ≤ tok u) :
    (∀ c ∈ splitContentIntoChunks tok content B, (tok c : Int) ≤ B ∨ ¬ nnSep <:+: c) ∧
    (∀ st sent, (tok (st.current ++ dsSep ++ sent) : Int) = B →
      addSentence tok B st sent =
        { chunks := st.chunks, current := st.current ++ (if st.current ≠ [] then dsSep ++ sent else sent) }) ∧
    (∀ st para, (tok (st.current ++ nnSep ++ para) : Int) = B →
      addParagraph tok B st para =
        { chunks := st.chunks, current := st.current ++ (if st.current ≠ [] then nnSep ++ para else para) }) ∧
    (∀ st sec, (tok sec : Int) ≤ B → (tok (st.current ++ nnSep ++ sec) : Int) = B →
      addSection tok B st sec =
        { chunks := st.chunks, current := st.current ++ (if st.current ≠ [] then nnSep ++ sec else sec) }) := by
  refine ⟨fun c hc => splitContentIntoChunks_PChunk hstrip c hc, ?_, ?_, ?_⟩
  · intro st sent h
    unfold addSentence
    rw [if_neg (by omega)]
  · intro st para h
    unfold addParagraph
    rw [if_neg (by omega)]
  · intro st sec hsec h
    unfold addSection
    rw [if_neg (by omega), if_neg (by omega)]

/-- C2 witness: the amended theorem evaluated with the character-count
meter at budget 10: the over-budget chunk `"cc. dd. eee"` is a single
paragraph, and the addition `"aa" + ". " + "bbbbbb"` landing exactly at
budget 10 is included. -/
theorem c2_budget_or_single_paragraph_witness :
    ((tokLen (chars "cc. dd. eee") : Int) ≤ 10 ∨ ¬ nnSep <:+: chars "cc. dd. eee") ∧
    addSentence tokLen 10 { chunks := [], current := chars "aa" } (chars "bbbbbb") =
      { chunks := [], current := chars "aa. bbbbbb" } :=
  ⟨(c2_budget_or_single_paragraph tokLen 10 (chars "ab\n\ncc. dd. eee")
      (fun u => pyStrip_length_le u)).1 (chars "cc. dd. eee") (by decide),
   ((c2_budget_or_single_paragraph tokLen 10 (chars "ab\n\ncc. dd. eee")
      (fun u => pyStrip_length_le u)).2.1 { chunks := [], current := chars "aa" }
      (chars "bbbbbb") (by decide)).trans (by decide)⟩

/-- C3 counterexample: the content `"a\n--- Sectionb"` fits a budget of 100
(14 characters), yet the single returned chunk is `"a\n\n--- Sectionb"`:
the newline before the section marker has been rewritten to a blank line,
so the chunk differs from the whole content, and no whitespace trimming was
applied whose undoing could restore it. -/
theorem c3_counterexample :
    tokLen (chars "a\n--- Sectionb") ≤ 100 ∧
    splitContentIntoChunks tokLen (chars "a\n--- Sectionb") 100 = [chars "a\n\n--- Sectionb"] ∧
    chars "a\n\n--- Sectionb" ≠ chars "a\n--- Sectionb" ∧
    pyStrip (chars "a\n\n--- Sectionb") = chars "a\n\n--- Sectionb" := by decide

/-- C3 (amended): when the content contains no `"\n--- Section"` marker, is
non-empty and its token count is within the budget, the function returns
exactly one chunk equal to the whole content, possibly stripped of outer
whitespace.  (For marker-containing content the concatenation of the chunks
does not reproduce the input even after undoing flush-time trimming: the
newline before each marker is rewritten to a blank line or dropped, and
boundary delimiters are dropped — see the counterexample.) -/
theorem c3_single_chunk_of_fit (tok : Str → Nat) (B : Int) (content : Str)
    (hne : content ≠ []) (hsec : ¬ secSep <:+: content) (hfit : (tok content : Int) ≤ B) :
    splitContentIntoChunks tok content B = [content] ∨
    splitContentIntoChunks tok content B = [pyStrip content] := by
  have hsecEq : secSep = '\n' :: chars "--- Section" := rfl
  have hsplit : pySplit secSep content = [content] := by
    rw [hsecEq]
    exact pySplit_single '\n' (chars "--- Section") content (by rw [← hsecEq]; exact hsec)
  have hst : addSection tok B { chunks := [], current := [] } content =
      { chunks := [content], current := [] } ∨
      addSection tok B { chunks := [], current := [] } content =
      { chunks := [], current := content } := by
    unfold addSection
    rw [if_neg (not_lt.mpr hfit)]
    by_cases hin : (tok (({ chunks := [], current := [] } : SplitState).current ++ nnSep ++ content) : Int) > B
    · left; rw [if_pos hin]; simp
    · right; rw [if_neg hin]; simp
  rcases hst with h | h
  · left
    simp only [splitContentIntoChunks, hsplit, restoreHeaders, List.map, List.foldl, h]
    simp
  · right
    simp only [splitContentIntoChunks, hsplit, restoreHeaders, List.map, List.foldl, h]
    simp [hne]

/-- C3 witness: marker-free fitting content yields the single whole chunk. -/
theorem c3_single_chunk_of_fit_witness :
    splitContentIntoChunks tokLen (chars "hello") 10 = [chars "hello"] ∨
    splitContentIntoChunks tokLen (chars "hello") 10 = [pyStrip (chars "hello")] :=
  c3_single_chunk_of_fit tokLen 10 (chars "hello") (by decide) (by decide) (by decide)

set_option maxRecDepth 100000 in
/-- C4 counterexample: with the character-count meter, window 500, task
`"t"` and format `"structured_json"`, the computed chunk budget is
`500 - 1620 - 1000 = -2120 ≤ 0`, yet `_process_with_chunking` raises no
configuration error: it splits the content `"Hi. Bye"` into 2 chunks
against that negative budget, and the only error on the path is the
`NameError` for `sys`, raised after the split. -/
theorem c4_counterexample :
    processWithChunking tokLen 500 (fun _ => none) (fun _ _ => []) (fun xs => xs)
      (chars "Hi. Bye") (chars "t") (chars "structured_json") none =
      (.error (.nameError (chars "sys")), [.split (-2120) 2]) ∧
    ((-2120 : Int) ≤ 0) := by
  exact ⟨rfl, by decide⟩

/-- C4 (amended): the code performs no validation of the computed chunk
budget (nor of the caller's response reserve, which does not even enter the
computation): when the budget is non-positive, `_process_with_chunking`
still invokes `_split_content_into_chunks` with that budget, and the run
then stops with the `NameError` for the unimported `sys` — raised after
chunking, not a configuration error before it. -/
theorem c4_no_fail_fast (tok : Str → Nat) (maxInputTokens : Nat)
    (jparse : Str → Option JValue) (svc : Str → Str → Str)
    (pySetList : List JValue → List JValue)
    (content task outputFormat : Str) (chunkSizeArg : Option Int)
    (hbudget : computedChunkSize tok maxInputTokens task outputFormat chunkSizeArg ≤ 0) :
    processWithChunking tok maxInputTokens jparse svc pySetList content task outputFormat chunkSizeArg =
      (.error (.nameError (chars "sys")),
       [.split (computedChunkSize tok maxInputTokens task outputFormat chunkSizeArg)
          (splitContentIntoChunks tok content
            (computedChunkSize tok maxInputTokens task outputFormat chunkSizeArg)).length]) := by
  simp only [processWithChunking]
  rfl

/-- C4 witness: a caller-supplied negative chunk size. -/
theorem c4_no_fail_fast_witness :
    processWithChunking tokLen 500 (fun _ => none) (fun _ _ => []) (fun xs => xs)
      (chars "Hi. Bye") (chars "t") (chars "structured_json") (some (-5)) =
      (.error (.nameError (chars "sys")),
       [.split (computedChunkSize tokLen 500 (chars "t") (chars "structured_json") (some (-5)))
          (splitContentIntoChunks tokLen (chars "Hi. Bye")
            (computedChunkSize tokLen 500 (chars "t") (chars "structured_json") (some (-5)))).length]) :=
  c4_no_fail_fast tokLen 500 (fun _ => none) (fun _ _ => []) (fun xs => xs)
    (chars "Hi. Bye") (chars "t") (chars "structured_json") (some (-5)) (by decide)

/-- C5: whenever the serialized content's token count is at most
`max_input_tokens` (equality included), `process_document` issues exactly
one completion call, via `_process_single_chunk`, whose user prompt is the
fixed prefix followed by the content (no previous-context block), and the
event trace contains no chunk-split and no merge event. -/
theorem c5_single_call (tok : Str → Nat) (maxInputTokens : Nat)
    (jparse : Str → Option JValue) (svc : Str → Str → Str)
    (pySetList : List JValue → List JValue) (doc : PyDocument)
    (task outputFormat : Str) (chunkSizeArg : Option Int)
    (h : tok (prepareContentForAI doc) ≤ maxInputTokens) :
    processDocument tok maxInputTokens jparse svc pySetList doc task outputFormat chunkSizeArg =
      (.ok (processSingleChunk jparse svc (prepareContentForAI doc) task outputFormat).1,
       [AIEvent.completion (createSystemPrompt task outputFormat)
          (chars "Please process the following content:\n\n" ++ prepareContentForAI doc)]) := by
  simp only [processDocument]
  rw [if_pos h]
  rfl

/-- C5 witness: the boundary case where the content's token count equals
`max_input_tokens` exactly (34 characters, window 34). -/
theorem c5_single_call_witness :
    processDocument tokLen 34 (fun _ => none) (fun _ _ => chars "resp") (fun xs => xs)
      { meta := { source := chars "s", content_type := chars "text/plain", title := none },
        sections := [], images := [] }
      (chars "analyze and restructure") (chars "structured_json") none =
      (.ok (processSingleChunk (fun _ => none) (fun _ _ => chars "resp")
          (prepareContentForAI
            { meta := { source := chars "s", content_type := chars "text/plain", title := none },
              sections := [], images := [] })
          (chars "analyze and restructure") (chars "structured_json")).1,
       [AIEvent.completion
          (createSystemPrompt (chars "analyze and restructure") (chars "structured_json"))
          (chars "Please process the following content:\n\n" ++
            prepareContentForAI
              { meta := { source := chars "s", content_type := chars "text/plain", title := none },
                sections := [], images := [] })]) :=
  c5_single_call tokLen 34 (fun _ => none) (fun _ _ => chars "resp") (fun xs => xs)
    { meta := { source := chars "s", content_type := chars "text/plain", title := none },
      sections := [], images := [] }
    (chars "analyze and restructure") (chars "structured_json") none (by decide)

set_option maxRecDepth 100000 in
/-- C6 counterexample: in the chunked loop with structured output, a
chunk result whose `summary` field is 501 characters long is carried into
the next iteration's rolling context whole — 501 characters, exceeding the
500-character cap the code applies on its other branches, with no
truncation. -/
theorem c6_counterexample :
    chunkLoop (fun _ => some (.obj [(chars "summary", .str (List.replicate 501 'a'))]))
      (fun _ _ => chars "r") (chars "t") (chars "structured_json")
      [chars "c1", chars "c2"] =
      .ok [(.str [],
            .obj [(chars "summary", .str (List.replicate 501 'a')),
                  (chars "chunk_number", .num 1)]),
           (.str (List.replicate 501 'a'),
            .obj [(chars "summary", .str (List.replicate 501 'a')),
                  (chars "chunk_number", .num 2)])] ∧
    (List.replicate 501 'a').length = 501 ∧
    newContextSummary (chars "structured_json")
      (.obj [(chars "summary", .str (List.replicate 501 'a'))]) =
      .ok (.str (List.replicate 501 'a')) ∧
    501 > 500 := by
  exact ⟨rfl, by decide, rfl, by decide⟩

/-- C6 (amended): in the chunked loop the rolling context starts as the
empty string for the first piece and, for every subsequent piece `j+1`, is
derived solely from piece `j`'s result, replacing (never accumulating) the
previous value.  The 500-character cap (plus a 3-character ellipsis) applies
only where the sliced value is a string: a string-valued `content` field, or
the `str()` fallback, yield a string context of at most 503 characters.  A
structured result's `summary` is carried raw with no cap; a list-valued
`content` of at most 500 elements is carried raw — and its interpolation
into the next prompt grows with its contents, e.g. a one-element list of a
string of length `n` interpolates to `n + 4` characters, so no fixed cap
bounds the context — while a longer list raises TypeError
(`list[:500] + "..."`). -/
theorem c6_rolling_context (jparse : Str → Option JValue) (svc : Str → Str → Str)
    (task outputFormat : Str) (chunks : List Str) :
    (∀ p pt, chunkLoop jparse svc task outputFormat chunks = .ok (p :: pt) → p.1 = .str []) ∧
    (∀ tr, chunkLoop jparse svc task outputFormat chunks = .ok tr →
      ∀ (j : Nat) (hj : j + 1 < tr.length),
        newContextSummary outputFormat ((tr.get ⟨j, Nat.lt_of_succ_lt hj⟩).2) =
          .ok ((tr.get ⟨j + 1, hj⟩).1)) ∧
    (∀ r : JValue,
      ¬ (outputFormat = chars "structured_json" ∧ (objLookup r (chars "summary")).isSome = true) →
      (∀ s, objLookup r (chars "content") = some (.str s) →
        ∃ s', newContextSummary outputFormat r = .ok (.str s') ∧ s'.length ≤ 503) ∧
      (objLookup r (chars "content") = none →
        ∃ s', newContextSummary outputFormat r = .ok (.str s') ∧ s'.length ≤ 503)) ∧
    (∀ (r : JValue) (xs : List JValue),
      ¬ (outputFormat = chars "structured_json" ∧ (objLookup r (chars "summary")).isSome = true) →
      objLookup r (chars "content") = some (.arr xs) →
      (xs.length ≤ 500 → newContextSummary outputFormat r = .ok (.arr xs)) ∧
      (500 < xs.length → newContextSummary outputFormat r = .error .typeError)) ∧
    (∀ s : Str, (pyStr (.arr [.str s])).length = s.length + 4) := by
  refine ⟨?_, ?_, ?_, ?_, ?_⟩
  · intro p pt h
    simp only [chunkLoop] at h
    exact chunkLoopGo_head jparse svc task outputFormat chunks.length chunks 0 (.str []) p pt h
  · intro tr h j hj
    simp only [chunkLoop] at h
    exact chunkLoopGo_chain jparse svc task outputFormat chunks.length chunks 0 (.str []) tr h j hj
  · intro r hn
    constructor
    · intro s hc
      rw [newContextSummary_content_str outputFormat r s hn hc]
      split
      · next hlen =>
        refine ⟨s.take 500 ++ chars "...", rfl, ?_⟩
        rw [List.length_append, List.length_take]
        have h3 : (chars "...").length = 3 := rfl
        rw [h3]
        omega
      · next hlen => exact ⟨s, rfl, by omega⟩
    · intro hc
      rw [newContextSummary_no_content outputFormat r hn hc]
      split
      · next hlen =>
        refine ⟨(pyStr r).take 500 ++ chars "...", rfl, ?_⟩
        rw [List.length_append, List.length_take]
        have h3 : (chars "...").length = 3 := rfl
        rw [h3]
        omega
      · next hlen => exact ⟨pyStr r, rfl, by omega⟩
  · intro r xs hn hc
    rw [newContextSummary_content_arr outputFormat r xs hn hc]
    constructor
    · intro hle
      rw [if_neg (by omega)]
    · intro hgt
      rw [if_pos (by omega)]
  · intro s
    have h1 : pyStr (.arr [.str s]) = '[' :: (('\x27' :: (s ++ ['\x27'])) ++ [']']) := by
      simp [pyStr, pyRepr, pyReprItems]
    rw [h1]
    simp [List.length_append]

/-- C6 witness: a two-chunk loop where piece 2's context is derived from
piece 1's result; a capped string-`content` context; a raw-carried
list-`content` context; and the interpolation length of a carried
one-element list. -/
theorem c6_rolling_context_witness :
    newContextSummary (chars "structured_json")
      (([((JValue.str []),
          JValue.obj [(chars "summary", .str (chars "s1")), (chars "chunk_number", .num 1)]),
         (.str (chars "s1"),
          .obj [(chars "summary", .str (chars "s1")), (chars "chunk_number", .num 2)])].get
        ⟨0, by decide⟩).2) =
      .ok (([((JValue.str []),
          JValue.obj [(chars "summary", .str (chars "s1")), (chars "chunk_number", .num 1)]),
         (.str (chars "s1"),
          .obj [(chars "summary", .str (chars "s1")), (chars "chunk_number", .num 2)])].get
        ⟨1, by decide⟩).1) ∧
    (∃ s', newContextSummary (chars "markdown") (.obj [(chars "content", .str (chars "x"))]) =
      .ok (.str s') ∧ s'.length ≤ 503) ∧
    newContextSummary (chars "structured_json")
      (.obj [(chars "content", .arr [.str (chars "y")])]) = .ok (.arr [.str (chars "y")]) ∧
    (pyStr (.arr [.str (chars "hello")])).length = (chars "hello").length + 4 :=
  ⟨(c6_rolling_context (fun _ => some (.obj [(chars "summary", .str (chars "s1"))]))
      (fun _ _ => chars "r") (chars "t") (chars "structured_json")
      [chars "c1", chars "c2"]).2.1
      [((JValue.str []),
        JValue.obj [(chars "summary", .str (chars "s1")), (chars "chunk_number", .num 1)]),
       (.str (chars "s1"),
        .obj [(chars "summary", .str (chars "s1")), (chars "chunk_number", .num 2)])]
      rfl 0 (by decide),
   ((c6_rolling_context (fun _ => some (.obj [(chars "summary", .str (chars "s1"))]))
      (fun _ _ => chars "r") (chars "t") (chars "markdown")
      [chars "c1", chars "c2"]).2.2.1
      (.obj [(chars "content", .str (chars "x"))]) (by decide)).1 (chars "x") rfl,
   ((c6_rolling_context (fun _ => some (.obj [(chars "summary", .str (chars "s1"))]))
      (fun _ _ => chars "r") (chars "t") (chars "structured_json")
      [chars "c1", chars "c2"]).2.2.2.1
      (.obj [(chars "content", .arr [.str (chars "y")])]) [.str (chars "y")]
      (by decide) rfl).1 (by decide),
   (c6_rolling_context (fun _ => some (.obj [(chars "summary", .str (chars "s1"))]))
      (fun _ _ => chars "r") (chars "t") (chars "structured_json")
      [chars "c1", chars "c2"]).2.2.2.2 (chars "hello")⟩

theorem setIfNonempty_spec (pySetList : List JValue → List JValue)
    (hmem : ∀ xs v, v ∈ pySetList xs ↔ v ∈ xs)
    (hnd : ∀ xs, (pySetList xs).Nodup) (all : List JValue) :
    (setIfNonempty pySetList all).Nodup ∧ (∀ v, v ∈ setIfNonempty pySetList all ↔ v ∈ all) := by
  cases all with
  | nil => simp [setIfNonempty]
  | cons a t => exact ⟨hnd _, fun v => hmem _ v⟩

theorem mem_flatten_extract (results : List JValue) (k : Str) (v : JValue) :
    v ∈ ((results.enum.map (fun p => extractListField k p.2)).flatten) ↔
      ∃ r ∈ results, ∃ ys, objLookup r k = some (.arr ys) ∧ v ∈ ys := by
  rw [enum_map_comp results (extractListField k), List.mem_flatten]
  constructor
  · rintro ⟨s, hs, hv⟩
    rcases List.mem_map.mp hs with ⟨r, hr, rfl⟩
    exact ⟨r, hr, (mem_extractListField k r v).mp hv⟩
  · rintro ⟨r, hr, hys⟩
    exact ⟨extractListField k r, List.mem_map_of_mem _ hr, (mem_extractListField k r v).mpr hys⟩

/-- C7: for every ordered list of structured piece results (with the merge
fields well-formed), each of the four list-valued fields of the merged
result — `key_topics`, `important_points`, `insights`, `recommendations` —
is duplicate-free and equal, as a set, to the union of that field across
all pieces; `pySetList` is Python's `list(set(...))`, assumed
membership-preserving and duplicate-free (its iteration order is
arbitrary, so no order is guaranteed). -/
theorem c7_merge_set_semantics (pySetList : List JValue → List JValue)
    (results : List JValue) (task : Str)
    (hmem : ∀ xs v, v ∈ pySetList xs ↔ v ∈ xs)
    (hnd : ∀ xs, (pySetList xs).Nodup)
    (hwf : ∀ r ∈ results, wfResult r = true) :
    ∀ k ∈ [chars "key_topics", chars "important_points", chars "insights", chars "recommendations"],
      ∃ xs, objLookup (combineJsonResults pySetList results task) k = some (.arr xs) ∧
        xs.Nodup ∧
        (∀ v, v ∈ xs ↔ ∃ r ∈ results, ∃ ys, objLookup r k = some (.arr ys) ∧ v ∈ ys) := by
  intro k hk
  simp only [List.mem_cons, List.not_mem_nil, or_false] at hk
  rcases hk with rfl | rfl | rfl | rfl
  · refine ⟨setIfNonempty pySetList
      ((results.enum.foldl combineStep ⟨[], [], [], [], [], [], 0, []⟩).allKeyTopics), rfl,
      (setIfNonempty_spec pySetList hmem hnd _).1, fun v => ?_⟩
    rw [(setIfNonempty_spec pySetList hmem hnd _).2 v]
    have hfold := foldl_proj_append (fun a => a.allKeyTopics)
      (fun p => extractListField (chars "key_topics") p.2) combineStep_kt results.enum
      ⟨[], [], [], [], [], [], 0, []⟩
    rw [show (⟨[], [], [], [], [], [], 0, []⟩ : CombineAcc).allKeyTopics = [] from rfl,
      List.nil_append] at hfold
    rw [hfold, mem_flatten_extract]
  · refine ⟨setIfNonempty pySetList
      ((results.enum.foldl combineStep ⟨[], [], [], [], [], [], 0, []⟩).allImportantPoints), rfl,
      (setIfNonempty_spec pySetList hmem hnd _).1, fun v => ?_⟩
    rw [(setIfNonempty_spec pySetList hmem hnd _).2 v]
    have hfold := foldl_proj_append (fun a => a.allImportantPoints)
      (fun p => extractListField (chars "important_points") p.2) combineStep_ip results.enum
      ⟨[], [], [], [], [], [], 0, []⟩
    rw [show (⟨[], [], [], [], [], [], 0, []⟩ : CombineAcc).allImportantPoints = [] from rfl,
      List.nil_append] at hfold
    rw [hfold, mem_flatten_extract]
  · refine ⟨setIfNonempty pySetList
      ((results.enum.foldl combineStep ⟨[], [], [], [], [], [], 0, []⟩).allInsights), rfl,
      (setIfNonempty_spec pySetList hmem hnd _).1, fun v => ?_⟩
    rw [(setIfNonempty_spec pySetList hmem hnd _).2 v]
    have hfold := foldl_proj_append (fun a => a.allInsights)
      (fun p => extractListField (chars "insights") p.2) combineStep_ins results.enum
      ⟨[], [], [], [], [], [], 0, []⟩
    rw [show (⟨[], [], [], [], [], [], 0, []⟩ : CombineAcc).allInsights = [] from rfl,
      List.nil_append] at hfold
    rw [hfold, mem_flatten_extract]
  · refine ⟨setIfNonempty pySetList
      ((results.enum.foldl combineStep ⟨[], [], [], [], [], [], 0, []⟩).allRecommendations), rfl,
      (setIfNonempty_spec pySetList hmem hnd _).1, fun v => ?_⟩
    rw [(setIfNonempty_spec pySetList hmem hnd _).2 v]
    have hfold := foldl_proj_append (fun a => a.allRecommendations)
      (fun p => extractListField (chars "recommendations") p.2) combineStep_rec results.enum
      ⟨[], [], [], [], [], [], 0, []⟩
    rw [show (⟨[], [], [], [], [], [], 0, []⟩ : CombineAcc).allRecommendations = [] from rfl,
      List.nil_append] at hfold
    rw [hfold, mem_flatten_extract]

/-- C7 witness: merging pieces whose `key_topics` are `["a","b"]` and
`["b","c"]`, with `list(set(...))` realized by `List.dedup`. -/
theorem c7_merge_set_semantics_witness :
    ∃ xs, objLookup (combineJsonResults (fun xs => xs.dedup)
      [.obj [(chars "key_topics", .arr [.str (chars "a"), .str (chars "b")])],
       .obj [(chars "key_topics", .arr [.str (chars "b"), .str (chars "c")])]]
      (chars "t")) (chars "key_topics") = some (.arr xs) ∧
      xs.Nodup ∧
      (∀ v, v ∈ xs ↔ ∃ r ∈ [JValue.obj [(chars "key_topics", .arr [.str (chars "a"), .str (chars "b")])],
          JValue.obj [(chars "key_topics", .arr [.str (chars "b"), .str (chars "c")])]],
        ∃ ys, objLookup r (chars "key_topics") = some (.arr ys) ∧ v ∈ ys) :=
  c7_merge_set_semantics (fun xs => xs.dedup)
    [.obj [(chars "key_topics", .arr [.str (chars "a"), .str (chars "b")])],
     .obj [(chars "key_topics", .arr [.str (chars "b"), .str (chars "c")])]]
    (chars "t") (fun _ _ => List.mem_dedup) (fun xs => List.nodup_dedup xs)
    (by decide) (chars "key_topics") (by decide)

/-- C8 counterexample: merging two pieces whose `image_contexts` both hold
`["x"]` yields a merged `image_contexts` of `["x","x"]` — the lists are
concatenated but NOT deduplicated (the merged list is not duplicate-free),
contradicting the claimed concatenate-then-deduplicate semantics. -/
theorem c8_counterexample :
    objLookup2 (combineJsonResults (fun xs => xs)
      [.obj [(chars "images_analysis", .obj [(chars "total_images", .num 2),
          (chars "image_contexts", .arr [.str (chars "x")])])],
       .obj [(chars "images_analysis", .obj [(chars "total_images", .num 3),
          (chars "image_contexts", .arr [.str (chars "x")])])]]
      (chars "t")) (chars "images_analysis") (chars "image_contexts") =
      some (.arr [.str (chars "x"), .str (chars "x")]) ∧
    ¬ ([JValue.str (chars "x"), JValue.str (chars "x")].Nodup) := by
  refine ⟨rfl, fun h => ?_⟩
  exact (List.nodup_cons.mp h).1 (List.mem_singleton.mpr rfl)

/-- C8 (amended): the merged `images_analysis.total_images` equals the sum
of the pieces' `total_images` values (absent counters count as 0), and the
merged `image_contexts` is the plain concatenation of the pieces' lists in
order — duplicates retained, no deduplication applied. -/
theorem c8_counter_sum_contexts_concat (pySetList : List JValue → List JValue)
    (results : List JValue) (task : Str)
    (hwf : ∀ r ∈ results, wfResult r = true) :
    objLookup2 (combineJsonResults pySetList results task)
      (chars "images_analysis") (chars "total_images") =
      some (.num ((results.map extractIaTotal).sum)) ∧
    objLookup2 (combineJsonResults pySetList results task)
      (chars "images_analysis") (chars "image_contexts") =
      some (.arr ((results.map extractIaContexts).flatten)) := by
  constructor
  · have h1 : objLookup2 (combineJsonResults pySetList results task)
        (chars "images_analysis") (chars "total_images") =
        some (.num ((results.enum.foldl combineStep ⟨[], [], [], [], [], [], 0, []⟩).iaTotal)) := rfl
    rw [h1, foldl_proj_sum (fun a => a.iaTotal) (fun p => extractIaTotal p.2)
      combineStep_iaTotal results.enum ⟨[], [], [], [], [], [], 0, []⟩]
    rw [show (⟨[], [], [], [], [], [], 0, []⟩ : CombineAcc).iaTotal = 0 from rfl,
      enum_map_comp results extractIaTotal]
    simp
  · have h1 : objLookup2 (combineJsonResults pySetList results task)
        (chars "images_analysis") (chars "image_contexts") =
        some (.arr ((results.enum.foldl combineStep ⟨[], [], [], [], [], [], 0, []⟩).iaContexts)) := rfl
    rw [h1, foldl_proj_append (fun a => a.iaContexts) (fun p => extractIaContexts p.2)
      combineStep_iaContexts results.enum ⟨[], [], [], [], [], [], 0, []⟩]
    rw [show (⟨[], [], [], [], [], [], 0, []⟩ : CombineAcc).iaContexts = [] from rfl,
      List.nil_append, enum_map_comp results extractIaContexts]

/-- C8 witness: counts 2 and 3 sum to 5, and the contexts concatenate. -/
theorem c8_counter_sum_contexts_concat_witness :
    objLookup2 (combineJsonResults (fun xs => xs)
      [.obj [(chars "images_analysis", .obj [(chars "total_images", .num 2),
          (chars "image_contexts", .arr [.str (chars "x")])])],
       .obj [(chars "images_analysis", .obj [(chars "total_images", .num 3),
          (chars "image_contexts", .arr [.str (chars "x")])])]]
      (chars "t")) (chars "images_analysis") (chars "total_images") = some (.num 5) ∧
    objLookup2 (combineJsonResults (fun xs => xs)
      [.obj [(chars "images_analysis", .obj [(chars "total_images", .num 2),
          (chars "image_contexts", .arr [.str (chars "x")])])],
       .obj [(chars "images_analysis", .obj [(chars "total_images", .num 3),
          (chars "image_contexts", .arr [.str (chars "x")])])]]
      (chars "t")) (chars "images_analysis") (chars "image_contexts") =
      some (.arr [.str (chars "x"), .str (chars "x")]) :=
  ⟨((c8_counter_sum_contexts_concat (fun xs => xs)
      [.obj [(chars "images_analysis", .obj [(chars "total_images", .num 2),
          (chars "image_contexts", .arr [.str (chars "x")])])],
       .obj [(chars "images_analysis", .obj [(chars "total_images", .num 3),
          (chars "image_contexts", .arr [.str (chars "x")])])]]
      (chars "t") (by decide)).1).trans rfl,
   ((c8_counter_sum_contexts_concat (fun xs => xs)
      [.obj [(chars "images_analysis", .obj [(chars "total_images", .num 2),
          (chars "image_contexts", .arr [.str (chars "x")])])],
       .obj [(chars "images_analysis", .obj [(chars "total_images", .num 3),
          (chars "image_contexts", .arr [.str (chars "x")])])]]
      (chars "t") (by decide)).2).trans rfl⟩

/-- C9: when the output format is `structured_json` and the completion
service's response is not valid JSON, the single-call path returns the
raw-text fallback dict (`raw_response` + `format: "text"`) and the
per-chunk path returns the same fallback with the chunk number added;
neither path raises. -/
theorem c9_parse_failure_fallback (jparse : Str → Option JValue) (svc : Str → Str → Str)
    (content task ctxPrompt chunk : Str) (num total : Nat)
    (h1 : jparse (svc (createSystemPrompt task (chars "structured_json"))
        (chars "Please process the following content:\n\n" ++ content)) = none)
    (h2 : jparse (svc (createChunkSystemPrompt task (chars "structured_json") num total)
        (ctxPrompt ++ chars "Please process this chunk (" ++ natStr num ++ chars "/" ++
          natStr total ++ chars "):\n\n" ++ chunk)) = none) :
    (processSingleChunk jparse svc content task (chars "structured_json")).1 =
      .obj [(chars "raw_response", .str (svc (createSystemPrompt task (chars "structured_json"))
          (chars "Please process the following content:\n\n" ++ content))),
        (chars "format", .str (chars "text"))] ∧
    processChunkWithContext jparse svc chunk ctxPrompt task (chars "structured_json") num total =
      .obj [(chars "raw_response", .str (svc (createChunkSystemPrompt task (chars "structured_json") num total)
          (ctxPrompt ++ chars "Please process this chunk (" ++ natStr num ++ chars "/" ++
            natStr total ++ chars "):\n\n" ++ chunk))),
        (chars "format", .str (chars "text")), (chars "chunk_number", .num num)] := by
  constructor
  · simp only [processSingleChunk, if_true]
    rw [h1]
  · simp only [processChunkWithContext, if_true]
    rw [h2]

/-- C9 witness: a parser that rejects everything. -/
theorem c9_parse_failure_fallback_witness :
    (processSingleChunk (fun _ => none) (fun _ _ => chars "bad") (chars "c") (chars "t")
        (chars "structured_json")).1 =
      .obj [(chars "raw_response", .str ((fun _ _ => chars "bad")
          (createSystemPrompt (chars "t") (chars "structured_json"))
          (chars "Please process the following content:\n\n" ++ chars "c"))),
        (chars "format", .str (chars "text"))] ∧
    processChunkWithContext (fun _ => none) (fun _ _ => chars "bad") (chars "ch") []
        (chars "t") (chars "structured_json") 2 3 =
      .obj [(chars "raw_response", .str ((fun _ _ => chars "bad")
          (createChunkSystemPrompt (chars "t") (chars "structured_json") 2 3)
          ([] ++ chars "Please process this chunk (" ++ natStr 2 ++ chars "/" ++
            natStr 3 ++ chars "):\n\n" ++ chars "ch"))),
        (chars "format", .str (chars "text")), (chars "chunk_number", .num 2)] :=
  c9_parse_failure_fallback (fun _ => none) (fun _ _ => chars "bad")
    (chars "c") (chars "t") [] (chars "ch") 2 3 rfl rfl

/-- C10: the merged result's `images_analysis.images_by_page` is the empty
dict for every list of (well-formed) piece results and every task: the
per-piece page maps are never carried, namespaced or summed into the
merged output. -/
theorem c10_images_by_page_empty (pySetList : List JValue → List JValue)
    (results : List JValue) (task : Str)
    (hwf : ∀ r ∈ results, wfResult r = true) :
    objLookup2 (combineJsonResults pySetList results task)
      (chars "images_analysis") (chars "images_by_page") = some (.obj []) := rfl

/-- C10 witness: a piece carrying a non-empty `images_by_page` map still
merges to the empty map. -/
theorem c10_images_by_page_empty_witness :
    objLookup2 (combineJsonResults (fun xs => xs)
      [.obj [(chars "images_analysis", .obj [
          (chars "images_by_page", .obj [(chars "1", .arr [.str (chars "img1")])]),
          (chars "total_images", .num 1)])]]
      (chars "t")) (chars "images_analysis") (chars "images_by_page") = some (.obj []) :=
  c10_images_by_page_empty (fun xs => xs)
    [.obj [(chars "images_analysis", .obj [
        (chars "images_by_page", .obj [(chars "1", .arr [.str (chars "img1")])]),
        (chars "total_images", .num 1)])]]
    (chars "t") (by decide)

end Panparsex
